import Mathlib

/-!
Shallow embedding of the whatsmeow client core (client.go, retry.go and the
call-event handler) together with proofs about the retry state machine, the
recent-message ring, the connection supervisor, the event bus and the
call-signaling handler.  Go machine integers are modelled as Nat/Int with
explicit truncation where overflow matters; fallible collaborators are
modelled as Option-valued inputs; pointer-typed protobuf messages are
modelled through an explicit heap so that proto.Clone is observable.
-/

namespace Whatsmeow

/-- JID is the WhatsApp identity tuple; only the fields the embedded code
reads (user, device, server) are kept. -/
structure JID where
  user : String
  device : Nat
  server : String
deriving DecidableEq, Repr

/-- The zero JID (types.EmptyJID). -/
def emptyJID : JID := ⟨"", 0, ""⟩

/-- Go JID.IsEmpty: equality with the zero value. -/
def JID.isEmpty (j : JID) : Bool := decide (j = emptyJID)

/-- String rendering of a JID as used for group ids and destination jids
(the exact format is irrelevant to the claims; only injectivity on the
fields used matters, which is not relied upon). -/
def JID.render (j : JID) : String := j.user ++ "@" ++ j.server

/-- Typed scalar stanza attribute values (waBinary.Attrs values). -/
inductive AttrValue where
  | str (s : String)
  | int (i : Int)
  | bool (b : Bool)
  | jid (j : JID)
deriving DecidableEq, Repr

/-- A binary stanza (waBinary.Node).  The Go Content field is an interface
holding nil, a byte slice or a child list; it is split into two fields with
the convention that at most one of them is non-trivial. -/
inductive Node where
  | mk (tag : String) (attrs : List (String × AttrValue))
       (bytesContent : Option (List Nat)) (children : List Node)

def Node.tag : Node → String
  | .mk t _ _ _ => t

def Node.attrs : Node → List (String × AttrValue)
  | .mk _ a _ _ => a

def Node.bytesContent : Node → Option (List Nat)
  | .mk _ _ b _ => b

/-- Go Node.GetChildren: the child list, empty when the content is bytes. -/
def Node.getChildren : Node → List Node
  | .mk _ _ _ c => c

/-- First-match lookup in an attribute list (Go map indexing; the model keys
are unique in all constructed nodes). -/
def lookupAttr : List (String × AttrValue) → String → Option AttrValue
  | [], _ => none
  | (k2, v) :: rest, k => if k2 = k then some v else lookupAttr rest k

def Node.attr (n : Node) (k : String) : Option AttrValue := lookupAttr n.attrs k

/-- AttrGetter.String: a required string attribute. -/
def Node.agString (n : Node) (k : String) : Option String :=
  match n.attr k with
  | some (.str s) => some s
  | _ => none

/-- AttrGetter.Int: a required integer attribute. -/
def Node.agInt (n : Node) (k : String) : Option Int :=
  match n.attr k with
  | some (.int i) => some i
  | _ => none

/-- AttrGetter.JID: a required JID attribute. -/
def Node.agJID (n : Node) (k : String) : Option JID :=
  match n.attr k with
  | some (.jid j) => some j
  | _ => none

/-- AttrGetter.UnixTime: a required unix-seconds attribute (time values are
modelled as Int seconds). -/
def Node.agUnixTime (n : Node) (k : String) : Option Int :=
  match n.attr k with
  | some (.int i) => some i
  | _ => none

/-- AttrGetter getters return the Go zero value when the attribute is absent
and only set the sticky error flag; handleCallEvent never checks the flag,
so its reads are modelled with defaults. -/
def Node.agStringD (n : Node) (k : String) : String := (n.agString k).getD ""

def Node.agJIDD (n : Node) (k : String) : JID := (n.agJID k).getD emptyJID

def Node.agUnixTimeD (n : Node) (k : String) : Int := (n.agUnixTime k).getD 0

/-- AttrGetter.OptionalInt: zero when absent. -/
def Node.agOptionalInt (n : Node) (k : String) : Int := (n.agInt k).getD 0

/-- Go Node.GetOptionalChildByTag with a single tag. -/
def findChildByTag : List Node → String → Option Node
  | [], _ => none
  | c :: rest, t => if c.tag = t then some c else findChildByTag rest t

def Node.getOptionalChildByTag (n : Node) (t : String) : Option Node :=
  findChildByTag n.getChildren t

/-- Association-list model of xsync.MapOf: Load. -/
def mapLoad {K V : Type} [DecidableEq K] : List (K × V) → K → Option V
  | [], _ => none
  | (k2, v) :: rest, k => if k2 = k then some v else mapLoad rest k

/-- Association-list model of xsync.MapOf: Delete (removes every binding of
the key; bindings are unique in reachable states). -/
def mapDelete {K V : Type} [DecidableEq K] : List (K × V) → K → List (K × V)
  | [], _ => []
  | (k2, v) :: rest, k =>
      if k2 = k then mapDelete rest k else (k2, v) :: mapDelete rest k

/-- Association-list model of xsync.MapOf: Store (insert-or-overwrite). -/
def mapStore {K V : Type} [DecidableEq K] (m : List (K × V)) (k : K) (v : V) :
    List (K × V) :=
  (k, v) :: mapDelete m k

/-- The key set of a map, as a list. -/
def mapKeys {K V : Type} (m : List (K × V)) : List K := m.map Prod.fst

/-! Recent-message ring (retry.go).  Messages are *waProto.Message pointers
in Go; pointers are modelled as heap addresses (plain Nat here), so the map
value type is Nat. -/

/-- Number of sent messages cached for handling retry receipts
(recentMessagesSize). -/
def recentMessagesSize : Nat := 256

/-- Key of the recent-message structures (recentMessageKey). -/
structure recentMessageKey where
  To : JID
  ID : String
deriving DecidableEq, Repr

/-- The zero key; ring slots holding it are considered empty. -/
def emptyRecentKey : recentMessageKey := ⟨emptyJID, ""⟩

/-- The recent-message fields of the Client: the concurrent map, the fixed
size-256 ring array and the ring pointer. -/
structure RecentMessagesState where
  recentMessagesMap : List (recentMessageKey × Nat)
  recentMessagesList : List recentMessageKey
  recentMessagesPtr : Nat
deriving DecidableEq, Repr

/-- A fresh client's recent-message state (NewClient zero values). -/
def freshRecentMessages : RecentMessagesState :=
  ⟨[], List.replicate recentMessagesSize emptyRecentKey, 0⟩

/-- Client.addRecentMessage: evict the slot under the pointer from the map
when its key has a nonempty ID, store the new entry in the map, overwrite
the slot, and advance the pointer modulo the ring length. -/
def addRecentMessage (st : RecentMessagesState) (toJID : JID) (id : String)
    (message : Nat) : RecentMessagesState :=
  let key : recentMessageKey := ⟨toJID, id⟩
  let evicted := st.recentMessagesList.getD st.recentMessagesPtr emptyRecentKey
  let map1 :=
    if evicted.ID ≠ "" then mapDelete st.recentMessagesMap evicted
    else st.recentMessagesMap
  let map2 := mapStore map1 key message
  let list2 := st.recentMessagesList.set st.recentMessagesPtr key
  let ptr2 :=
    if st.recentMessagesPtr + 1 ≥ st.recentMessagesList.length then 0
    else st.recentMessagesPtr + 1
  ⟨map2, list2, ptr2⟩

/-- Client.getRecentMessage: map-only lookup. -/
def getRecentMessage (st : RecentMessagesState) (toJID : JID) (id : String) :
    Option Nat :=
  mapLoad st.recentMessagesMap ⟨toJID, id⟩

/-- A whole sequence of addRecentMessage calls, oldest first. -/
def addRecentMessages (st : RecentMessagesState)
    (items : List (JID × String × Nat)) : RecentMessagesState :=
  items.foldl (fun s i => addRecentMessage s i.1 i.2.1 i.2.2) st

/-- The keys sitting in non-empty ring slots (a slot is non-empty when its
key has a nonempty ID, the emptiness test the code itself uses). -/
def ringKeys (st : RecentMessagesState) : List recentMessageKey :=
  st.recentMessagesList.filter (fun k => decide (k.ID ≠ ""))

/-! Session recreation rate limiting (retry.go). -/

/-- recreateSessionTimeout, in seconds (1 hour). -/
def recreateSessionTimeout : Nat := 3600

/-- Client.shouldRecreateSession.  The Store.ContainsSession answer for the
jid's signal address and the current time are inputs; the
sessionRecreateHistory map is threaded through.  Returns the (reason,
recreate) pair and the updated history. -/
def shouldRecreateSession (hist : List (JID × Nat)) (containsSession : Bool)
    (now : Nat) (retryCount : Int) (jid : JID) :
    (String × Bool) × List (JID × Nat) :=
  if !containsSession then
    (("we don't have a Signal session with them", true), mapStore hist jid now)
  else if retryCount < 2 then
    (("", false), hist)
  else
    match mapLoad hist jid with
    | none =>
        (("retry count > 1 and over an hour since last recreation", true),
         mapStore hist jid now)
    | some prevTime =>
        if prevTime + recreateSessionTimeout < now then
          (("retry count > 1 and over an hour since last recreation", true),
           mapStore hist jid now)
        else (("", false), hist)

/-! Event-handler registry (client.go). -/

/-- wrappedEventHandler: the registered function (only its non-nilness is
observable here) and the handler id. -/
structure wrappedEventHandler where
  hasFn : Bool
  id : Nat
deriving DecidableEq, Repr

/-- The handler-registry fields: the global nextHandlerID counter (a Go
uint32, held here as a Nat below 2^32) and the ordered handler list. -/
structure EventHandlersState where
  nextHandlerID : Nat
  eventHandlers : List wrappedEventHandler
deriving DecidableEq, Repr

/-- Client.AddEventHandler: atomically increment the uint32 nextHandlerID
(atomic.AddUint32, which wraps modulo 2^32) and append the wrapped
handler; the new id is returned. -/
def addEventHandler (st : EventHandlersState) : Nat × EventHandlersState :=
  let nextID := (st.nextHandlerID + 1) % 2 ^ 32
  (nextID, ⟨nextID, st.eventHandlers ++ [⟨true, nextID⟩]⟩)

/-- The loop body of Client.RemoveEventHandler: remove the first element
whose id matches (the Go code distinguishes index 0, middle and last index
only to reuse the backing array; all three branches delete exactly the
matched element and keep the rest in order). -/
def removeHandlerFromList : List wrappedEventHandler → Nat →
    Bool × List wrappedEventHandler
  | [], _ => (false, [])
  | h :: t, id =>
      if h.id = id then (true, t)
      else
        let r := removeHandlerFromList t id
        (r.1, h :: r.2)

/-- Client.RemoveEventHandler. -/
def removeEventHandler (st : EventHandlersState) (id : Nat) :
    Bool × EventHandlersState :=
  let r := removeHandlerFromList st.eventHandlers id
  (r.1, ⟨st.nextHandlerID, r.2⟩)

/-! Connection supervisor (client.go). -/

/-- The xmlstreamend sentinel node delivered to response waiters on
disconnect (tag from handleFrame). -/
def xmlStreamEndNode : Node := .mk "xmlstreamend" [] none []

/-- A NoiseSocket handle: whether it reports itself connected, plus an
identity so distinct sockets are distinguishable. -/
structure NoiseSocketHandle where
  isConnected : Bool
  sid : Nat
deriving DecidableEq, Repr

/-- The connection-related Client fields: the nullable socket handle, the
pending response waiters (request id paired with the waiter's sink, an
opaque tag here) and the atomic expectedDisconnect flag. -/
structure ConnState where
  socket : Option NoiseSocketHandle
  responseWaiters : List (String × Nat)
  expectedDisconnect : Bool
deriving DecidableEq, Repr

/-- Modelled from the spec: Client.clearResponseWaiters lives in a file not
under src/; per the spec it delivers the end-of-stream sentinel to every
pending waiter and drops all entries.  The returned list records the
deliveries (sink, node). -/
def clearResponseWaiters (st : ConnState) (node : Node) :
    ConnState × List (Nat × Node) :=
  (⟨st.socket, [], st.expectedDisconnect⟩,
   st.responseWaiters.map (fun w => (w.2, node)))

/-- Client.unlockedDisconnect: stop and drop the socket, then clear the
response waiters with the end-of-stream node.  No-op without a socket. -/
def unlockedDisconnect (st : ConnState) : ConnState × List (Nat × Node) :=
  match st.socket with
  | some _ =>
      clearResponseWaiters ⟨none, st.responseWaiters, st.expectedDisconnect⟩
        xmlStreamEndNode
  | none => (st, [])

/-- Errors surfaced by Connect. -/
inductive ConnectError where
  | alreadyConnected
  | socketConnectFailed
  | handshakeFailed
deriving DecidableEq, Repr

/-- The external collaborators of Connect: whether the frame socket opens,
whether the Noise handshake succeeds, and the socket handle the handshake
installs on success (doHandshake is outside src/ and sets cli.socket; the
spec describes it as establishing the new connection). -/
structure ConnectEnv where
  fsConnectOk : Bool
  handshakeOk : Bool
  newSocket : NoiseSocketHandle
deriving DecidableEq, Repr

/-- The part of Connect after the socket-liveness check: reset the
expected-disconnect flag, open the frame socket, run the handshake. -/
def connectFresh (st : ConnState) (env : ConnectEnv)
    (delivered : List (Nat × Node)) :
    Option ConnectError × ConnState × List (Nat × Node) :=
  let st1 : ConnState := ⟨st.socket, st.responseWaiters, false⟩
  if !env.fsConnectOk then (some .socketConnectFailed, st1, delivered)
  else if !env.handshakeOk then (some .handshakeFailed, st1, delivered)
  else (none, ⟨some env.newSocket, st1.responseWaiters, false⟩, delivered)

/-- Client.Connect under the write lock: a live socket fails with
AlreadyConnected; a dead socket is disconnected first; then the fresh
connection is attempted.  The delivery list records end-of-stream values
handed to waiters along the way. -/
def connect (st : ConnState) (env : ConnectEnv) :
    Option ConnectError × ConnState × List (Nat × Node) :=
  match st.socket with
  | some s =>
      if s.isConnected then (some .alreadyConnected, st, [])
      else
        let r := unlockedDisconnect st
        connectFresh r.1 env r.2
  | none => connectFresh st env []

/-! Call-signaling handler (handleCallEvent). -/

/-- types.BasicCallMeta.  The Go field From is named fromJID because from is
a reserved word here. -/
structure BasicCallMeta where
  fromJID : JID
  timestamp : Int
  callCreator : JID
  callID : String
deriving DecidableEq, Repr

/-- types.CallRemoteMeta. -/
structure CallRemoteMeta where
  remotePlatform : String
  remoteVersion : String
deriving DecidableEq, Repr

/-- The events the call handler can dispatch. -/
inductive CallEvent where
  | unknownCallEvent (node : Node)
  | callOffer (meta : BasicCallMeta) (remote : CallRemoteMeta) (data : Node)
  | callOfferNotice (meta : BasicCallMeta) (media : String) (type : String)
      (data : Node)
  | callRelayLatency (meta : BasicCallMeta) (data : Node)
  | callAccept (meta : BasicCallMeta) (remote : CallRemoteMeta) (data : Node)
  | callPreAccept (meta : BasicCallMeta) (remote : CallRemoteMeta) (data : Node)
  | callTransport (meta : BasicCallMeta) (remote : CallRemoteMeta) (data : Node)
  | callTerminate (meta : BasicCallMeta) (reason : String) (data : Node)

/-- True exactly on the UnknownCallEvent variant. -/
def CallEvent.isUnknown : CallEvent → Bool
  | .unknownCallEvent _ => true
  | _ => false

/-- The stanza child tag each typed variant corresponds to. -/
def CallEvent.variantTag : CallEvent → Option String
  | .unknownCallEvent _ => none
  | .callOffer _ _ _ => some "offer"
  | .callOfferNotice _ _ _ _ => some "offer_notice"
  | .callRelayLatency _ _ => some "relaylatency"
  | .callAccept _ _ _ => some "accept"
  | .callPreAccept _ _ _ => some "preaccept"
  | .callTransport _ _ _ => some "transport"
  | .callTerminate _ _ _ => some "terminate"

/-- The basic meta carried by a typed call event. -/
def CallEvent.meta? : CallEvent → Option BasicCallMeta
  | .unknownCallEvent _ => none
  | .callOffer m _ _ => some m
  | .callOfferNotice m _ _ _ => some m
  | .callRelayLatency m _ => some m
  | .callAccept m _ _ => some m
  | .callPreAccept m _ _ => some m
  | .callTransport m _ _ => some m
  | .callTerminate m _ _ => some m

/-- The reason carried by a terminate event. -/
def CallEvent.reason? : CallEvent → Option String
  | .callTerminate _ r _ => some r
  | _ => none

/-- The media attribute carried by an offer-notice event. -/
def CallEvent.media? : CallEvent → Option String
  | .callOfferNotice _ m _ _ => some m
  | _ => none

/-- The type attribute carried by an offer-notice event. -/
def CallEvent.typeAttr? : CallEvent → Option String
  | .callOfferNotice _ _ t _ => some t
  | _ => none

/-- The child tags handleCallEvent gives a typed event. -/
def knownCallTags : List String :=
  ["offer", "offer_notice", "relaylatency", "accept", "preaccept",
   "transport", "terminate"]

/-- What one invocation of the call handler did: how many ack stanzas it
sent and which events it dispatched, in order. -/
structure CallHandlerOutput where
  acksSent : Nat
  events : List CallEvent

/-- The basic call metadata extracted from the outer node and the child. -/
def callBasicMeta (n c : Node) : BasicCallMeta :=
  ⟨n.agJIDD "from", n.agUnixTimeD "t", c.agJIDD "call-creator",
   c.agStringD "call-id"⟩

/-- The remote platform/version metadata, read from the outer node. -/
def callRemoteMeta (n : Node) : CallRemoteMeta :=
  ⟨n.agStringD "platform", n.agStringD "version"⟩

/-- Client.handleCallEvent: always ack; demand exactly one child; dispatch
a typed event by child tag, reading from and t (and platform/version) from
the outer attributes and call-creator/call-id (and reason, media, type)
from the child; unknown shapes produce UnknownCallEvent. -/
def handleCallEvent (node : Node) : CallHandlerOutput :=
  if node.getChildren.length ≠ 1 then ⟨1, [.unknownCallEvent node]⟩
  else
    let child := node.getChildren.headD (.mk "" [] none [])
    let basicMeta : BasicCallMeta :=
      ⟨node.agJIDD "from", node.agUnixTimeD "t", child.agJIDD "call-creator",
       child.agStringD "call-id"⟩
    let remote : CallRemoteMeta :=
      ⟨node.agStringD "platform", node.agStringD "version"⟩
    if child.tag = "offer" then ⟨1, [.callOffer basicMeta remote child]⟩
    else if child.tag = "offer_notice" then
      ⟨1, [.callOfferNotice basicMeta (child.agStringD "media")
            (child.agStringD "type") child]⟩
    else if child.tag = "relaylatency" then
      ⟨1, [.callRelayLatency basicMeta child]⟩
    else if child.tag = "accept" then ⟨1, [.callAccept basicMeta remote child]⟩
    else if child.tag = "preaccept" then
      ⟨1, [.callPreAccept basicMeta remote child]⟩
    else if child.tag = "transport" then
      ⟨1, [.callTransport basicMeta remote child]⟩
    else if child.tag = "terminate" then
      ⟨1, [.callTerminate basicMeta (child.agStringD "reason") child]⟩
    else ⟨1, [.unknownCallEvent node]⟩

/-! Protobuf messages and the pointer heap.  waProto.Message values are
passed by pointer in Go; the heap makes the clone in getMessageForRetry
observable: without it the group-chat branch of handleRetryReceipt would
mutate the cached message in place. -/

/-- The parts of waProto.Message the retry engine touches: an opaque
payload, the SenderKeyDistributionMessage field (group id and serialized
distribution message) and the DeviceSentMessage wrapper (destination jid
and inner message). -/
inductive WAMessage where
  | mk (payload : Option String)
       (senderKeyDistributionMessage : Option (String × List Nat))
       (deviceSentMessage : Option (String × WAMessage))

/-- Setting msg.SenderKeyDistributionMessage. -/
def WAMessage.withSKDM (m : WAMessage) (groupId : String) (bytes : List Nat) :
    WAMessage :=
  match m with
  | .mk p _ d => .mk p (some (groupId, bytes)) d

/-- A heap of message pointers: allocated cells and the next fresh
address. -/
structure Heap where
  data : List (Nat × WAMessage)
  next : Nat

/-- Dereference a message pointer. -/
def Heap.read (h : Heap) (a : Nat) : Option WAMessage := mapLoad h.data a

/-- Allocate a fresh cell holding a copy of the given message (this is what
proto.Clone produces). -/
def Heap.alloc (h : Heap) (m : WAMessage) : Nat × Heap :=
  (h.next, ⟨mapStore h.data h.next m, h.next + 1⟩)

/-- Overwrite the cell a pointer refers to (a Go field assignment through
the pointer). -/
def Heap.write (h : Heap) (a : Nat) (m : WAMessage) : Heap :=
  ⟨mapStore h.data a m, h.next⟩

/-- Allocation discipline: every allocated address is below next. -/
def Heap.WFa (h : Heap) : Prop :=
  ∀ a, a ∈ mapKeys h.data → a < h.next

/-! Inbound retry engine: sendRetryReceipt (retry.go). -/

/-- A Signal prekey (keys/prekey); only its identity matters here. -/
structure PreKey where
  keyID : Nat
  pub : List Nat
deriving DecidableEq, Repr

/-- Modelled from the spec: preKeyToNode is defined in a repository file
not under src/; the spec only requires that the fresh prekey and the signed
prekey appear as the third and fourth child of the keys block, so the
encoding is kept as an abstract single node carrying the key. -/
def preKeyToNode (k : PreKey) : Node :=
  .mk "key" [("id", .int k.keyID)] (some k.pub) []

/-- ecc.DjbType, the curve type byte. -/
def djbType : Nat := 5

/-- binary.BigEndian.PutUint32 into a 4-byte array; byte() truncation is
explicit so the result is meaningful for every Nat. -/
def putUint32BE (v : Nat) : List Nat :=
  [v / 2 ^ 24 % 256, v / 2 ^ 16 % 256, v / 2 ^ 8 % 256, v % 256]

/-- Big-endian reading of a 4-byte list, for stating the encoding claim. -/
def beUint32Value : List Nat → Nat
  | [b0, b1, b2, b3] => ((b0 * 256 + b1) * 256 + b2) * 256 + b3
  | _ => 0

/-- The Store fields sendRetryReceipt reads. -/
structure DeviceStoreInfo where
  registrationID : Nat
  identityKeyPub : List Nat
  signedPreKey : PreKey
deriving DecidableEq, Repr

/-- The fallible collaborators of sendRetryReceipt: the store's one-off
prekey generator and proto.Marshal of the device account blob (none is the
error case of each). -/
structure RetryReceiptEnv where
  genOnePreKey : Option PreKey
  marshalAccount : Option (List Nat)
deriving DecidableEq, Repr

/-- What one call of sendRetryReceipt did: the updated messageRetries map,
the receipt stanza handed to sendNode (none when the function returned
without sending), and whether the delayed request-from-phone task was
spawned. -/
structure SendRetryOutcome where
  messageRetries : List (String × Int)
  sent : Option Node
  requestedFromPhone : Bool

/-- The count attribute found inside the single enc child of the incoming
message, zero when absent (the restart-recovery source of the counter). -/
def nodeRetryCountInMsg (node : Node) : Int :=
  match node.getChildren with
  | [c] => if c.tag = "enc" then c.agOptionalInt "count" else 0
  | _ => 0

/-- The updated per-id retry count a sendRetryReceipt call works with:
normally the stored counter plus one, but when that is 1 and the message
itself carries a positive count (process restart mid-retry), that count
plus one is adopted. -/
def updatedRetryCount (messageRetries : List (String × Int)) (node : Node) :
    Int :=
  let id := (node.agString "id").getD ""
  let retryCount0 := (mapLoad messageRetries id).getD 0 + 1
  if retryCount0 = 1 ∧ nodeRetryCountInMsg node > 0 then
    nodeRetryCountInMsg node + 1
  else retryCount0

/-- Client.sendRetryReceipt: bump (or adopt) the per-id retry counter, stop
at 5, schedule the phone rerequest on the first retry, and build the
receipt stanza: a retry child (count, id, t, v), a registration child with
the 4-byte big-endian registration id, and - when count exceeds 1 or
identity inclusion is forced - a keys child, unless prekey generation fails
(receipt still sent without keys) or account marshaling fails (nothing
sent). -/
def sendRetryReceipt (store : DeviceStoreInfo) (env : RetryReceiptEnv)
    (messageRetries : List (String × Int)) (node : Node)
    (forceIncludeIdentity : Bool) : SendRetryOutcome :=
  let id := (node.agString "id").getD ""
  let retryCount0 := (mapLoad messageRetries id).getD 0 + 1
  let mr1 := mapStore messageRetries id retryCount0
  let retryCount := updatedRetryCount messageRetries node
  let mr2 :=
    if retryCount0 = 1 ∧ nodeRetryCountInMsg node > 0 then
      mapStore mr1 id retryCount
    else mr1
  if retryCount ≥ 5 then ⟨mr2, none, false⟩
  else
    let requested := retryCount = 1
    let attrs0 : List (String × AttrValue) :=
      [("id", .str id), ("type", .str "retry"),
       ("to", (node.attr "from").getD (.str ""))]
    let attrs1 :=
      match node.attr "recipient" with
      | some r => attrs0 ++ [("recipient", r)]
      | none => attrs0
    let attrs2 :=
      match node.attr "participant" with
      | some p => attrs1 ++ [("participant", p)]
      | none => attrs1
    let registrationIDBytes := putUint32BE store.registrationID
    let retryChild : Node :=
      .mk "retry"
        [("count", .int retryCount), ("id", .str id),
         ("t", (node.attr "t").getD (.str "")), ("v", .int 1)] none []
    let registrationChild : Node :=
      .mk "registration" [] (some registrationIDBytes) []
    let baseChildren := [retryChild, registrationChild]
    if retryCount > 1 ∨ forceIncludeIdentity then
      match env.genOnePreKey with
      | none =>
          ⟨mr2, some (.mk "receipt" attrs2 none baseChildren), requested⟩
      | some key =>
          match env.marshalAccount with
          | none => ⟨mr2, none, requested⟩
          | some deviceIdentity =>
              let keysChild : Node :=
                .mk "keys" [] none
                  [.mk "type" [] (some [djbType]) [],
                   .mk "identity" [] (some store.identityKeyPub) [],
                   preKeyToNode key,
                   preKeyToNode store.signedPreKey,
                   .mk "device-identity" [] (some deviceIdentity) []]
              ⟨mr2,
               some (.mk "receipt" attrs2 none (baseChildren ++ [keysChild])),
               requested⟩
    else ⟨mr2, some (.mk "receipt" attrs2 none baseChildren), requested⟩

/-- The messageRetries map after k successive sendRetryReceipt calls on the
same stanza, starting from an empty map. -/
def messageRetriesAfter (store : DeviceStoreInfo) (env : RetryReceiptEnv)
    (node : Node) (force : Bool) : Nat → List (String × Int)
  | 0 => []
  | k + 1 =>
      (sendRetryReceipt store env (messageRetriesAfter store env node force k)
        node force).messageRetries

/-- The outcome of the (k+1)-st sendRetryReceipt call in that sequence. -/
def sendRetryOutcomeAt (store : DeviceStoreInfo) (env : RetryReceiptEnv)
    (node : Node) (force : Bool) (k : Nat) : SendRetryOutcome :=
  sendRetryReceipt store env (messageRetriesAfter store env node force k)
    node force

/-! Outbound retry engine: handleRetryReceipt (retry.go). -/

/-- The fields of events.Receipt the retry engine reads. -/
structure ReceiptEvent where
  chat : JID
  sender : JID
  isFromMe : Bool
  isGroup : Bool
deriving DecidableEq, Repr

/-- An opaque prekey bundle (prekey.Bundle). -/
structure Bundle where
  bid : Nat
deriving DecidableEq, Repr

/-- Key of the incoming retry-request counter (incomingRetryKey). -/
structure incomingRetryKey where
  jid : JID
  messageID : String
deriving DecidableEq, Repr

/-- The errors handleRetryReceipt can return. -/
inductive RetryError where
  | elementMissing (tag : String)
  | attrError
  | messageNotFound (id : String)
  | notLoggedIn
  | marshalFailed
  | preKeyBundleInvalid
  | fetchPreKeysFailed
  | noPreKeyBundle
  | encryptFailed
  | sendFailed
deriving DecidableEq, Repr

/-- The Client fields handleRetryReceipt reads and writes, plus the message
heap. -/
structure RetryState where
  heap : Heap
  recent : RecentMessagesState
  incomingRetryRequestCounter : List (incomingRetryKey × Int)
  sessionRecreateHistory : List (JID × Nat)

/-- The external collaborators of handleRetryReceipt, fixed for one call:
the clock, the own jid, the Store session check for the sender, the
GetMessageForRetry fallback, the group session builder, the veto callback,
proto.Marshal, nodeToPreKeyBundle, fetchPreKeys (outer none is a fetch or
per-jid error, inner none a missing bundle), the media/type helpers, the
per-device encryptor (returning the enc node and the include-device-identity
flag) and whether sendNode succeeds. -/
structure RetryEnv where
  now : Nat
  ownJID : JID
  containsSession : Bool
  getMessageForRetryFn : Option WAMessage
  skdmResult : Option (List Nat)
  preRetryCallback : Option (Int → WAMessage → Bool)
  marshalMessage : WAMessage → Option (List Nat)
  nodeBundle : Option Bundle
  fetchPreKeysResult : Option (Option Bundle)
  getMediaType : WAMessage → String
  getMessageType : WAMessage → String
  encrypt : List Nat → Option Bundle → List (String × AttrValue) →
    Option (Node × Bool)
  getMessageContent : Node → WAMessage → List (String × AttrValue) → Bool →
    List Node
  sendOk : Bool

/-- What one handleRetryReceipt call did: the updated state, the message
stanza that reached the socket (none when nothing was sent), whether a
prekey-bundle fetch was issued, and the returned error (none = nil). -/
structure RetryOutcome where
  state : RetryState
  sent : Option Node
  fetchedPreKeys : Bool
  error : Option RetryError

/-- Go map-update of a node attribute (encrypted.Attrs assignment). -/
def Node.setAttr (n : Node) (k : String) (v : AttrValue) : Node :=
  .mk n.tag (mapStore n.attrs k v) n.bytesContent n.getChildren

/-- The enc-envelope attributes: mediatype is set when the message carries
media. -/
def retryEncAttrs (env : RetryEnv) (msg : WAMessage) :
    List (String × AttrValue) :=
  if env.getMediaType msg ≠ "" then
    [("mediatype", .str (env.getMediaType msg))]
  else []

/-- The attributes of the outbound retry message stanza: to is copied from
the receipt's from, participant, recipient and edit are propagated when
present, and device_fanout=false is set outside groups. -/
def retryMsgAttrs (env : RetryEnv) (receipt : ReceiptEvent) (node : Node)
    (messageID : String) (timestamp : Int) (msg : WAMessage) :
    List (String × AttrValue) :=
  let attrs0 : List (String × AttrValue) :=
    [("to", (node.attr "from").getD (.str "")),
     ("type", .str (env.getMessageType msg)),
     ("id", .str messageID), ("t", .int timestamp)]
  let attrs1 :=
    if !receipt.isGroup then attrs0 ++ [("device_fanout", .bool false)]
    else attrs0
  let attrs2 :=
    match node.attr "participant" with
    | some p => attrs1 ++ [("participant", p)]
    | none => attrs1
  let attrs3 :=
    match node.attr "recipient" with
    | some r => attrs2 ++ [("recipient", r)]
    | none => attrs2
  match node.attr "edit" with
  | some e => attrs3 ++ [("edit", e)]
  | none => attrs3

/-- The tail of handleRetryReceipt after the prekey bundle is settled:
encrypt with the enc attrs, attach the original count, assemble the message
stanza and send. -/
def finishRetry (st : RetryState) (env : RetryEnv) (receipt : ReceiptEvent)
    (node : Node) (messageID : String) (timestamp : Int) (retryCount : Int)
    (plaintext : List Nat) (msg : WAMessage) (bundle : Option Bundle)
    (fetched : Bool) : RetryOutcome :=
  match env.encrypt plaintext bundle (retryEncAttrs env msg) with
  | none => ⟨st, none, fetched, some .encryptFailed⟩
  | some (encrypted, includeDeviceIdentity) =>
      let encrypted2 := encrypted.setAttr "count" (.int retryCount)
      let attrs4 := retryMsgAttrs env receipt node messageID timestamp msg
      let outNode : Node :=
        .mk "message" attrs4 none
          (env.getMessageContent encrypted2 msg attrs4 includeDeviceIdentity)
      if env.sendOk then ⟨st, some outNode, fetched, none⟩
      else ⟨st, none, fetched, some .sendFailed⟩

/-- The group/own-chat wrapping step of handleRetryReceipt, acting on the
cloned message through its pointer: groups get the sender-key distribution
message attached in place (failures to build it are swallowed); own chats
get the clone rewrapped in a freshly allocated DeviceSentMessage; one-to-one
chats are untouched.  Returns the new state and the message pointer to use
from here on. -/
def wrapMessageForRetry (st2 : RetryState) (env : RetryEnv)
    (receipt : ReceiptEvent) (msgAddr : Nat) (origMsg : WAMessage) :
    RetryState × Nat :=
  if receipt.isGroup then
    match env.skdmResult with
    | none => (st2, msgAddr)
    | some skdm =>
        let m := (st2.heap.read msgAddr).getD origMsg
        (⟨st2.heap.write msgAddr (m.withSKDM receipt.chat.render skdm),
          st2.recent, st2.incomingRetryRequestCounter,
          st2.sessionRecreateHistory⟩, msgAddr)
  else if receipt.isFromMe then
    let inner := (st2.heap.read msgAddr).getD origMsg
    let fresh :=
      st2.heap.alloc (.mk none none (some (receipt.chat.render, inner)))
    (⟨fresh.2, st2.recent, st2.incomingRetryRequestCounter,
      st2.sessionRecreateHistory⟩, fresh.1)
  else (st2, msgAddr)

/-- The prekey-bundle settlement and send tail of handleRetryReceipt: use
the receipt's keys child when present, otherwise consult
shouldRecreateSession and fetch a fresh bundle when it says to. -/
def retryBundleStage (st3 : RetryState) (env : RetryEnv)
    (receipt : ReceiptEvent) (node : Node) (messageID : String)
    (timestamp : Int) (retryCount : Int) (plaintext : List Nat)
    (msgVal : WAMessage) : RetryOutcome :=
  if (node.getOptionalChildByTag "keys").isSome then
    match env.nodeBundle with
    | none => ⟨st3, none, false, some .preKeyBundleInvalid⟩
    | some b =>
        finishRetry st3 env receipt node messageID timestamp retryCount
          plaintext msgVal (some b) false
  else
    let srs :=
      shouldRecreateSession st3.sessionRecreateHistory env.containsSession
        env.now retryCount receipt.sender
    let st4 : RetryState :=
      ⟨st3.heap, st3.recent, st3.incomingRetryRequestCounter, srs.2⟩
    if srs.1.2 then
      match env.fetchPreKeysResult with
      | none => ⟨st4, none, true, some .fetchPreKeysFailed⟩
      | some none => ⟨st4, none, true, some .noPreKeyBundle⟩
      | some (some b) =>
          finishRetry st4 env receipt node messageID timestamp retryCount
            plaintext msgVal (some b) true
    else
      finishRetry st4 env receipt node messageID timestamp retryCount
        plaintext msgVal none false

/-- Everything handleRetryReceipt does after the plaintext is recovered:
clone it, bump the per-(sender, id) counter and drop silently at 10, check
login, wrap, consult the veto callback, marshal, then settle the bundle and
send. -/
def handleRetryReceiptCore (st : RetryState) (env : RetryEnv)
    (receipt : ReceiptEvent) (node : Node) (messageID : String)
    (timestamp : Int) (retryCount : Int) (origMsg : WAMessage) :
    RetryOutcome :=
  let cloned := st.heap.alloc origMsg
  let msgAddr := cloned.1
  let st1 : RetryState :=
    ⟨cloned.2, st.recent, st.incomingRetryRequestCounter,
     st.sessionRecreateHistory⟩
  let retryKey : incomingRetryKey := ⟨receipt.sender, messageID⟩
  let internalCounter :=
    (mapLoad st1.incomingRetryRequestCounter retryKey).getD 0 + 1
  let st2 : RetryState :=
    ⟨st1.heap, st1.recent,
     mapStore st1.incomingRetryRequestCounter retryKey internalCounter,
     st1.sessionRecreateHistory⟩
  if internalCounter ≥ 10 then ⟨st2, none, false, none⟩
  else if env.ownJID.isEmpty then ⟨st2, none, false, some .notLoggedIn⟩
  else
    let wrapped := wrapMessageForRetry st2 env receipt msgAddr origMsg
    let st3 := wrapped.1
    let msgVal := (st3.heap.read wrapped.2).getD origMsg
    let vetoed :=
      match env.preRetryCallback with
      | none => false
      | some f => !f retryCount msgVal
    if vetoed then ⟨st3, none, false, none⟩
    else
      match env.marshalMessage msgVal with
      | none => ⟨st3, none, false, some .marshalFailed⟩
      | some plaintext =>
          retryBundleStage st3 env receipt node messageID timestamp
            retryCount plaintext msgVal

/-- Client.handleRetryReceipt: parse the retry child, recover the plaintext
from the ring or GetMessageForRetry and clone it, then run the core. -/
def handleRetryReceipt (st : RetryState) (env : RetryEnv)
    (receipt : ReceiptEvent) (node : Node) : RetryOutcome :=
  match node.getOptionalChildByTag "retry" with
  | none => ⟨st, none, false, some (.elementMissing "retry")⟩
  | some retryChild =>
    match retryChild.agString "id", retryChild.agUnixTime "t",
        retryChild.agInt "count" with
    | some messageID, some timestamp, some retryCount =>
      let origContent : Option WAMessage :=
        match mapLoad st.recent.recentMessagesMap ⟨receipt.chat, messageID⟩ with
        | some a => st.heap.read a
        | none => env.getMessageForRetryFn
      match origContent with
      | none => ⟨st, none, false, some (.messageNotFound messageID)⟩
      | some origMsg =>
          handleRetryReceiptCore st env receipt node messageID timestamp
            retryCount origMsg
    | _, _, _ => ⟨st, none, false, some .attrError⟩

/-- The state after k handleRetryReceipt calls on the same receipt. -/
def retryRun (st : RetryState) (env : RetryEnv) (receipt : ReceiptEvent)
    (node : Node) : Nat → RetryState
  | 0 => st
  | k + 1 => (handleRetryReceipt (retryRun st env receipt node k) env
      receipt node).state

/-- The outcome of the (k+1)-st handleRetryReceipt call in that sequence. -/
def retryOutcomeAt (st : RetryState) (env : RetryEnv) (receipt : ReceiptEvent)
    (node : Node) (k : Nat) : RetryOutcome :=
  handleRetryReceipt (retryRun st env receipt node k) env receipt node

/-- Plain-text recoverability: the precondition of accepting a retry
receipt, as the claims phrase it (the message is found in the ring or via
the GetMessageForRetry fallback). -/
def RecoverOK (st : RetryState) (env : RetryEnv) (receipt : ReceiptEvent)
    (messageID : String) : Prop :=
  (match mapLoad st.recent.recentMessagesMap ⟨receipt.chat, messageID⟩ with
   | some a => st.heap.read a
   | none => env.getMessageForRetryFn).isSome = true

/-- The environment-side success assumptions under which a handleRetryReceipt
call runs to completion: the retry child parses, we are logged in, the veto
callback is absent, and the marshal/bundle/encrypt/send collaborators
succeed. -/
structure RetryEnvOK (env : RetryEnv) (node : Node) (retryChild : Node)
    (messageID : String) (timestamp : Int) (retryCount : Int) : Prop where
  child_eq : node.getOptionalChildByTag "retry" = some retryChild
  id_eq : retryChild.agString "id" = some messageID
  t_eq : retryChild.agUnixTime "t" = some timestamp
  count_eq : retryChild.agInt "count" = some retryCount
  own_ne : env.ownJID.isEmpty = false
  no_veto : env.preRetryCallback = none
  marshal_ok : ∀ m, (env.marshalMessage m).isSome = true
  encrypt_ok : ∀ p b a, (env.encrypt p b a).isSome = true
  send_ok : env.sendOk = true
  keys_ok : (node.getOptionalChildByTag "keys").isSome = true →
    env.nodeBundle.isSome = true
  fetch_ok : (∃ b, env.fetchPreKeysResult = some (some b)) ∨
    (env.containsSession = true ∧ retryCount < 2)

/-- The state-side assumptions: a well-formed heap and a recoverable
plaintext. -/
def RetryStateOK (st : RetryState) (env : RetryEnv) (receipt : ReceiptEvent)
    (messageID : String) : Prop :=
  st.heap.WFa ∧ RecoverOK st env receipt messageID

/-! Concrete material for witnesses and counterexamples. -/

def jidA : JID := ⟨"alice", 1, "s.whatsapp.net"⟩

def jidMe : JID := ⟨"me", 0, "s.whatsapp.net"⟩

def c1Msg : WAMessage := .mk (some "hello") none none

def c1RetryChild : Node :=
  .mk "retry"
    [("id", .str "M1"), ("t", .int 1700000000), ("count", .int 1)] none []

def c1Node : Node :=
  .mk "receipt" [("from", .jid jidA), ("type", .str "retry")] none
    [c1RetryChild]

def c1Receipt : ReceiptEvent := ⟨jidA, jidA, false, false⟩

def c1Env : RetryEnv :=
  ⟨0, jidMe, true, some c1Msg, none, none, fun _ => some [1], none, none,
   fun _ => "", fun _ => "text",
   fun _ _ _ => some (.mk "enc" [] (some [2]) [], false),
   fun e _ _ _ => [e], true⟩

def c1State : RetryState := ⟨⟨[], 0⟩, freshRecentMessages, [], []⟩

def c9State : RetryState :=
  ⟨⟨[(0, c1Msg)], 1⟩,
   ⟨[(⟨jidA, "M1"⟩, 0)],
    (freshRecentMessages).recentMessagesList.set 0 ⟨jidA, "M1"⟩, 1⟩,
   [], []⟩

def c9Receipt : ReceiptEvent := ⟨jidA, jidA, false, true⟩

def c9Env : RetryEnv :=
  ⟨0, jidMe, true, none, some [9], none, fun _ => some [1], none, none,
   fun _ => "", fun _ => "text",
   fun _ _ _ => some (.mk "enc" [] (some [2]) [], false),
   fun e _ _ _ => [e], true⟩

/-- Witness material for the inbound retry claims. -/
def c5Store : DeviceStoreInfo := ⟨305419896, [5, 6], ⟨9, [7, 8]⟩⟩

def c5Env : RetryReceiptEnv := ⟨some ⟨7, [1, 2]⟩, some [3, 4]⟩

def c5EncChild : Node := .mk "enc" [("type", .str "pkmsg")] (some [1]) []

def c5Node : Node :=
  .mk "message" [("id", .str "Y1"), ("from", .jid jidA), ("t", .int 99)] none
    [c5EncChild]

def c6OfferChild : Node :=
  .mk "offer" [("call-creator", .jid jidA), ("call-id", .str "C1")] none []

def c6Node : Node :=
  .mk "call" [("from", .jid jidA), ("t", .int 1700000000)] none [c6OfferChild]

def c6Bogus : Node :=
  .mk "call" [("from", .jid jidA)] none [.mk "bogus" [] none []]

/-! Recent-message ring: invariant machinery for C2. -/

/-- The index of the newest write into ring slot i after n insertions: the
largest m below n congruent to i modulo 256. -/
def lastIdx (n i : Nat) : Nat := i + 256 * ((n - 1 - i) / 256)

/-- The keys of an insertion sequence. -/
def keysOf (items : List (JID × String × Nat)) : List recentMessageKey :=
  items.map (fun i => ⟨i.1, i.2.1⟩)

/-- The inductive invariant tying the ring, the pointer and the map to the
full insertion history ks (distinct non-empty keys assumed where used):
slot i holds the key written at lastIdx, and the map holds exactly the keys
of the last 256 insertions, without duplicates. -/
def RMInv (ks : List recentMessageKey) (st : RecentMessagesState) : Prop :=
  st.recentMessagesList.length = 256 ∧
  st.recentMessagesPtr = ks.length % 256 ∧
  (∀ i, i < 256 →
    st.recentMessagesList.getD i emptyRecentKey =
      (if i < ks.length then ks.getD (lastIdx ks.length i) emptyRecentKey
       else emptyRecentKey)) ∧
  (∀ k, k ∈ mapKeys st.recentMessagesMap ↔
    ∃ j, ks.length - 256 ≤ j ∧ j < ks.length ∧
      ks.getD j emptyRecentKey = k) ∧
  (mapKeys st.recentMessagesMap).Nodup

/-- A family of distinct JIDs for concrete ring scenarios. -/
def c2jid (d : Nat) : JID := ⟨"u", d, "s"⟩

/-- 257 insertions in which the first key occurs twice: positions 0 and 1
both carry the key (c2jid 0, x); position 256 evicts ring slot 0 and
thereby deletes that key from the map although slot 1 still holds it. -/
def c2dupItems : List (JID × String × Nat) :=
  (c2jid 0, "x", 0) :: (c2jid 0, "x", 0) ::
    ((List.range 254).map (fun d => (c2jid (d + 1), "x", 0))) ++
      [(c2jid 255, "x", 0)]

/-- Three distinct insertions for the C2 witness. -/
def c2WitnessItems : List (JID × String × Nat) :=
  [(c2jid 0, "x", 10), (c2jid 1, "y", 11), (c2jid 2, "z", 12)]

/-! Generic association-map and heap lemmas. -/

theorem mapLoad_delete_ne {K V : Type} [DecidableEq K] (m : List (K × V))
    (k k2 : K) (h : k2 ≠ k) : mapLoad (mapDelete m k) k2 = mapLoad m k2 := by
  induction m with
  | nil => rfl
  | cons p rest ih =>
      obtain ⟨k3, v⟩ := p
      by_cases h3 : k3 = k
      · subst h3
        have : k3 ≠ k2 := fun hh => h (hh ▸ rfl)
        simp [mapDelete, mapLoad, this, ih]
      · by_cases h2 : k3 = k2
        · subst h2; simp [mapDelete, mapLoad, h3]
        · simp [mapDelete, mapLoad, h3, h2, ih]

theorem mapLoad_delete_self {K V : Type} [DecidableEq K] (m : List (K × V))
    (k : K) : mapLoad (mapDelete m k) k = none := by
  induction m with
  | nil => rfl
  | cons p rest ih =>
      obtain ⟨k3, v⟩ := p
      by_cases h3 : k3 = k
      · simp [mapDelete, h3, ih]
      · simp [mapDelete, mapLoad, h3, ih]

theorem mapLoad_store_self {K V : Type} [DecidableEq K] (m : List (K × V))
    (k : K) (v : V) : mapLoad (mapStore m k v) k = some v := by
  simp [mapStore, mapLoad]

theorem mapLoad_store_ne {K V : Type} [DecidableEq K] (m : List (K × V))
    (k k2 : K) (v : V) (h : k2 ≠ k) :
    mapLoad (mapStore m k v) k2 = mapLoad m k2 := by
  have : k ≠ k2 := fun hh => h (hh ▸ rfl)
  simp [mapStore, mapLoad, this, mapLoad_delete_ne m k k2 h]

theorem mapKeys_delete_subset {K V : Type} [DecidableEq K] (m : List (K × V))
    (k a : K) (ha : a ∈ mapKeys (mapDelete m k)) : a ∈ mapKeys m := by
  induction m with
  | nil => simpa [mapDelete] using ha
  | cons p rest ih =>
      obtain ⟨k3, v⟩ := p
      by_cases h3 : k3 = k
      · simp [mapDelete, h3] at ha
        exact List.mem_cons_of_mem _ (ih ha)
      · simp only [mapDelete, h3, if_false, mapKeys, List.map_cons,
          List.mem_cons] at ha ⊢
        rcases ha with ha | ha
        · exact Or.inl ha
        · exact Or.inr (ih ha)

theorem mapKeys_store_mem {K V : Type} [DecidableEq K] (m : List (K × V))
    (k a : K) (v : V) (ha : a ∈ mapKeys (mapStore m k v)) :
    a = k ∨ a ∈ mapKeys m := by
  simp only [mapStore, mapKeys, List.map_cons, List.mem_cons] at ha
  rcases ha with ha | ha
  · exact Or.inl ha
  · exact Or.inr (mapKeys_delete_subset m k a ha)

theorem Heap.wfa_alloc (h : Heap) (m : WAMessage) (hw : h.WFa) :
    (h.alloc m).2.WFa := by
  intro a ha
  simp only [Heap.alloc] at ha
  rcases mapKeys_store_mem _ _ _ _ ha with rfl | ha
  · exact Nat.lt_succ_self _
  · exact Nat.lt_succ_of_lt (hw a ha)

theorem Heap.wfa_write (h : Heap) (a0 : Nat) (m : WAMessage) (hw : h.WFa)
    (ha0 : a0 < h.next) : (h.write a0 m).WFa := by
  intro a ha
  simp only [Heap.write] at ha
  rcases mapKeys_store_mem _ _ _ _ ha with rfl | ha
  · exact ha0
  · exact hw a ha

theorem mem_mapKeys_of_load_isSome {K V : Type} [DecidableEq K]
    (m : List (K × V)) (k : K) (hs : (mapLoad m k).isSome = true) :
    k ∈ mapKeys m := by
  induction m with
  | nil => simp [mapLoad] at hs
  | cons p rest ih =>
      obtain ⟨k3, v⟩ := p
      by_cases h3 : k3 = k
      · subst h3; simp [mapKeys]
      · simp only [mapLoad, h3, if_false] at hs
        simp only [mapKeys, List.map_cons, List.mem_cons]
        exact Or.inr (ih hs)

theorem Heap.read_lt_of_some (h : Heap) (a : Nat) (hw : h.WFa)
    (hs : (h.read a).isSome = true) : a < h.next :=
  hw a (mem_mapKeys_of_load_isSome h.data a hs)

theorem Heap.read_alloc_lt (h : Heap) (m : WAMessage) (a : Nat)
    (ha : a < h.next) : (h.alloc m).2.read a = h.read a := by
  simp only [Heap.alloc, Heap.read]
  exact mapLoad_store_ne _ _ _ _ (Nat.ne_of_lt ha)

theorem Heap.read_write_ne (h : Heap) (a0 : Nat) (m : WAMessage) (a : Nat)
    (ha : a ≠ a0) : (h.write a0 m).read a = h.read a := by
  simp only [Heap.write, Heap.read]
  exact mapLoad_store_ne _ _ _ _ ha

theorem Heap.next_alloc (h : Heap) (m : WAMessage) :
    (h.alloc m).2.next = h.next + 1 := rfl

theorem Heap.next_write (h : Heap) (a0 : Nat) (m : WAMessage) :
    (h.write a0 m).next = h.next := rfl

/-! Lemmas about shouldRecreateSession. -/

theorem shouldRecreateSession_iff (hist : List (JID × Nat)) (cs : Bool)
    (now : Nat) (rc : Int) (jid : JID) :
    (shouldRecreateSession hist cs now rc jid).1.2 = true ↔
      (cs = false ∨ (1 < rc ∧ (mapLoad hist jid = none ∨
        ∃ prev, mapLoad hist jid = some prev ∧
          prev + recreateSessionTimeout < now))) := by
  cases cs with
  | false => simp [shouldRecreateSession]
  | true =>
      simp only [shouldRecreateSession, Bool.not_true, Bool.false_eq_true,
        if_false]
      by_cases h2 : rc < 2
      · simp only [h2, if_true]
        constructor
        · intro h; exact absurd h (by simp)
        · rintro (h | ⟨h1, _⟩)
          · exact absurd h (by simp)
          · omega
      · simp only [h2, if_false]
        cases hl : mapLoad hist jid with
        | none => simp [hl]; omega
        | some prev =>
            by_cases ht : prev + recreateSessionTimeout < now
            · simp [hl, ht]; omega
            · simp [hl, ht]

theorem shouldRecreateSession_records (hist : List (JID × Nat)) (cs : Bool)
    (now : Nat) (rc : Int) (jid : JID)
    (h : (shouldRecreateSession hist cs now rc jid).1.2 = true) :
    mapLoad (shouldRecreateSession hist cs now rc jid).2 jid = some now := by
  unfold shouldRecreateSession at h ⊢
  cases cs with
  | false => simp [mapLoad_store_self]
  | true =>
      simp only [Bool.not_true, Bool.false_eq_true, if_false] at h ⊢
      by_cases h2 : rc < 2
      · simp [h2] at h
      · simp only [h2, if_false] at h ⊢
        cases hl : mapLoad hist jid with
        | none => simp [hl, mapLoad_store_self]
        | some prev =>
            by_cases ht : prev + recreateSessionTimeout < now
            · simp [hl, ht, mapLoad_store_self]
            · simp [hl, ht] at h

theorem shouldRecreateSession_no_record (hist : List (JID × Nat)) (cs : Bool)
    (now : Nat) (rc : Int) (jid : JID)
    (h : (shouldRecreateSession hist cs now rc jid).1.2 = false) :
    (shouldRecreateSession hist cs now rc jid).2 = hist := by
  unfold shouldRecreateSession at h ⊢
  cases cs with
  | false => simp at h
  | true =>
      simp only [Bool.not_true, Bool.false_eq_true, if_false] at h ⊢
      by_cases h2 : rc < 2
      · simp [h2]
      · simp only [h2, if_false] at h ⊢
        cases hl : mapLoad hist jid with
        | none => simp [hl] at h
        | some prev =>
            by_cases ht : prev + recreateSessionTimeout < now
            · simp [hl, ht] at h
            · simp [hl, ht]

/-! Stage lemmas for handleRetryReceipt. -/

theorem finishRetry_state (st : RetryState) (env : RetryEnv)
    (receipt : ReceiptEvent) (node : Node) (messageID : String)
    (timestamp : Int) (retryCount : Int) (plaintext : List Nat)
    (msg : WAMessage) (bundle : Option Bundle) (fetched : Bool) :
    (finishRetry st env receipt node messageID timestamp retryCount plaintext
      msg bundle fetched).state = st := by
  unfold finishRetry
  split
  · rfl
  · split <;> rfl

theorem finishRetry_fetched (st : RetryState) (env : RetryEnv)
    (receipt : ReceiptEvent) (node : Node) (messageID : String)
    (timestamp : Int) (retryCount : Int) (plaintext : List Nat)
    (msg : WAMessage) (bundle : Option Bundle) (fetched : Bool) :
    (finishRetry st env receipt node messageID timestamp retryCount plaintext
      msg bundle fetched).fetchedPreKeys = fetched := by
  unfold finishRetry
  split
  · rfl
  · split <;> rfl

theorem finishRetry_ok (st : RetryState) (env : RetryEnv)
    (receipt : ReceiptEvent) (node : Node) (messageID : String)
    (timestamp : Int) (retryCount : Int) (plaintext : List Nat)
    (msg : WAMessage) (bundle : Option Bundle) (fetched : Bool)
    (henc : ∀ p b a, (env.encrypt p b a).isSome = true)
    (hsend : env.sendOk = true) :
    (finishRetry st env receipt node messageID timestamp retryCount plaintext
      msg bundle fetched).sent.isSome = true ∧
    (finishRetry st env receipt node messageID timestamp retryCount plaintext
      msg bundle fetched).error = none := by
  unfold finishRetry
  obtain ⟨⟨encd, incl⟩, he⟩ :=
    Option.isSome_iff_exists.mp (henc plaintext bundle (retryEncAttrs env msg))
  rw [he]
  simp [hsend]

theorem wrapMessageForRetry_fields (st2 : RetryState) (env : RetryEnv)
    (receipt : ReceiptEvent) (msgAddr : Nat) (origMsg : WAMessage) :
    (wrapMessageForRetry st2 env receipt msgAddr origMsg).1.recent =
      st2.recent ∧
    (wrapMessageForRetry st2 env receipt msgAddr
        origMsg).1.incomingRetryRequestCounter =
      st2.incomingRetryRequestCounter ∧
    (wrapMessageForRetry st2 env receipt msgAddr
        origMsg).1.sessionRecreateHistory =
      st2.sessionRecreateHistory := by
  unfold wrapMessageForRetry
  split
  · split <;> exact ⟨rfl, rfl, rfl⟩
  · split <;> exact ⟨rfl, rfl, rfl⟩

theorem wrapMessageForRetry_heap (st2 : RetryState) (env : RetryEnv)
    (receipt : ReceiptEvent) (msgAddr : Nat) (origMsg : WAMessage)
    (hwf : st2.heap.WFa) (hma : msgAddr < st2.heap.next) :
    (wrapMessageForRetry st2 env receipt msgAddr origMsg).1.heap.WFa ∧
    st2.heap.next ≤
      (wrapMessageForRetry st2 env receipt msgAddr origMsg).1.heap.next ∧
    ∀ a, a < st2.heap.next → a ≠ msgAddr →
      (wrapMessageForRetry st2 env receipt msgAddr origMsg).1.heap.read a =
        st2.heap.read a := by
  unfold wrapMessageForRetry
  split
  · split
    · exact ⟨hwf, le_refl _, fun a _ _ => rfl⟩
    · refine ⟨Heap.wfa_write _ _ _ hwf hma, le_refl _, fun a _ hne => ?_⟩
      exact Heap.read_write_ne _ _ _ _ hne
  · split
    · refine ⟨Heap.wfa_alloc _ _ hwf, ?_, fun a ha _ => ?_⟩
      · rw [Heap.next_alloc]; exact Nat.le_succ _
      · exact Heap.read_alloc_lt _ _ _ ha
    · exact ⟨hwf, le_refl _, fun a _ _ => rfl⟩

theorem retryBundleStage_fields (st3 : RetryState) (env : RetryEnv)
    (receipt : ReceiptEvent) (node : Node) (messageID : String)
    (timestamp : Int) (retryCount : Int) (plaintext : List Nat)
    (msgVal : WAMessage) :
    (retryBundleStage st3 env receipt node messageID timestamp retryCount
        plaintext msgVal).state.recent = st3.recent ∧
    (retryBundleStage st3 env receipt node messageID timestamp retryCount
        plaintext msgVal).state.incomingRetryRequestCounter =
      st3.incomingRetryRequestCounter ∧
    (retryBundleStage st3 env receipt node messageID timestamp retryCount
        plaintext msgVal).state.heap = st3.heap := by
  unfold retryBundleStage
  cases hkc : node.getOptionalChildByTag "keys" with
  | some c =>
      cases hnb : env.nodeBundle with
      | none => simp [hkc, hnb]
      | some b => simp [hkc, hnb, finishRetry_state]
  | none =>
      simp only [Option.isSome_none, Bool.false_eq_true, if_false]
      by_cases hr : (shouldRecreateSession st3.sessionRecreateHistory
          env.containsSession env.now retryCount receipt.sender).1.2 = true
      · cases hf : env.fetchPreKeysResult with
        | none => simp [hr, hf]
        | some ob =>
            cases ob with
            | none => simp [hr, hf]
            | some b => simp [hr, hf, finishRetry_state]
      · rw [Bool.not_eq_true] at hr
        simp [hr, finishRetry_state]

theorem retryBundleStage_fetched (st3 : RetryState) (env : RetryEnv)
    (receipt : ReceiptEvent) (node : Node) (messageID : String)
    (timestamp : Int) (retryCount : Int) (plaintext : List Nat)
    (msgVal : WAMessage)
    (hnokeys : node.getOptionalChildByTag "keys" = none) :
    (retryBundleStage st3 env receipt node messageID timestamp retryCount
        plaintext msgVal).fetchedPreKeys =
      (shouldRecreateSession st3.sessionRecreateHistory env.containsSession
        env.now retryCount receipt.sender).1.2 := by
  unfold retryBundleStage
  rw [hnokeys]
  simp only [Option.isSome_none, Bool.false_eq_true, if_false]
  by_cases hr : (shouldRecreateSession st3.sessionRecreateHistory
      env.containsSession env.now retryCount receipt.sender).1.2 = true
  · cases hf : env.fetchPreKeysResult with
    | none => simp [hr, hf]
    | some ob =>
        cases ob with
        | none => simp [hr, hf]
        | some b => simp [hr, hf, finishRetry_fetched]
  · rw [Bool.not_eq_true] at hr
    simp [hr, finishRetry_fetched]

theorem retryBundleStage_ok (st3 : RetryState) (env : RetryEnv)
    (receipt : ReceiptEvent) (node : Node) (messageID : String)
    (timestamp : Int) (retryCount : Int) (plaintext : List Nat)
    (msgVal : WAMessage)
    (henc : ∀ p b a, (env.encrypt p b a).isSome = true)
    (hsend : env.sendOk = true)
    (hkeys : (node.getOptionalChildByTag "keys").isSome = true →
      env.nodeBundle.isSome = true)
    (hfetch : (∃ b, env.fetchPreKeysResult = some (some b)) ∨
      (env.containsSession = true ∧ retryCount < 2)) :
    (retryBundleStage st3 env receipt node messageID timestamp retryCount
        plaintext msgVal).sent.isSome = true ∧
    (retryBundleStage st3 env receipt node messageID timestamp retryCount
        plaintext msgVal).error = none := by
  unfold retryBundleStage
  cases hkc : node.getOptionalChildByTag "keys" with
  | some c =>
      obtain ⟨b, hb⟩ := Option.isSome_iff_exists.mp (hkeys (by simp [hkc]))
      rw [hb]
      simp only [Option.isSome_some, if_true]
      exact finishRetry_ok _ _ _ _ _ _ _ _ _ _ _ henc hsend
  | none =>
      simp only [Option.isSome_none, Bool.false_eq_true, if_false]
      by_cases hr : (shouldRecreateSession st3.sessionRecreateHistory
          env.containsSession env.now retryCount receipt.sender).1.2 = true
      · rcases hfetch with ⟨b, hb⟩ | ⟨hcs, hrc⟩
        · have hfin := finishRetry_ok
            (⟨st3.heap, st3.recent, st3.incomingRetryRequestCounter,
              (shouldRecreateSession st3.sessionRecreateHistory
                env.containsSession env.now retryCount receipt.sender).2⟩ :
              RetryState)
            env receipt node messageID timestamp retryCount plaintext msgVal
            (some b) true henc hsend
          simp [hr, hb, hfin.1, hfin.2]
        · exfalso
          rw [shouldRecreateSession_iff] at hr
          rcases hr with h | ⟨h1, _⟩
          · rw [hcs] at h; exact Bool.noConfusion h
          · omega
      · rw [Bool.not_eq_true] at hr
        have hfin := finishRetry_ok
          (⟨st3.heap, st3.recent, st3.incomingRetryRequestCounter,
            (shouldRecreateSession st3.sessionRecreateHistory
              env.containsSession env.now retryCount receipt.sender).2⟩ :
            RetryState)
          env receipt node messageID timestamp retryCount plaintext msgVal
          none false henc hsend
        simp [hr, hfin.1, hfin.2]

/-! Behavior of the post-recovery core of handleRetryReceipt. -/

theorem handleRetryReceiptCore_counter (st : RetryState) (env : RetryEnv)
    (receipt : ReceiptEvent) (node : Node) (messageID : String)
    (timestamp : Int) (retryCount : Int) (origMsg : WAMessage) :
    mapLoad (handleRetryReceiptCore st env receipt node messageID timestamp
        retryCount origMsg).state.incomingRetryRequestCounter
      ⟨receipt.sender, messageID⟩ =
    some ((mapLoad st.incomingRetryRequestCounter
        ⟨receipt.sender, messageID⟩).getD 0 + 1) := by
  unfold handleRetryReceiptCore
  dsimp only
  repeat' split
  all_goals
    simp [mapLoad_store_self, wrapMessageForRetry_fields,
      retryBundleStage_fields]

theorem handleRetryReceiptCore_run (st : RetryState) (env : RetryEnv)
    (receipt : ReceiptEvent) (node : Node) (messageID : String)
    (timestamp : Int) (retryCount : Int) (origMsg : WAMessage)
    (hown : env.ownJID.isEmpty = false)
    (hveto : env.preRetryCallback = none)
    (hmar : ∀ m, (env.marshalMessage m).isSome = true)
    (henc : ∀ p b a, (env.encrypt p b a).isSome = true)
    (hsend : env.sendOk = true)
    (hkeys : (node.getOptionalChildByTag "keys").isSome = true →
      env.nodeBundle.isSome = true)
    (hfetch : (∃ b, env.fetchPreKeysResult = some (some b)) ∨
      (env.containsSession = true ∧ retryCount < 2)) :
    (handleRetryReceiptCore st env receipt node messageID timestamp retryCount
      origMsg).error = none ∧
    ((10 : Int) ≤ (mapLoad st.incomingRetryRequestCounter
        ⟨receipt.sender, messageID⟩).getD 0 + 1 →
      (handleRetryReceiptCore st env receipt node messageID timestamp
        retryCount origMsg).sent = none) ∧
    ((mapLoad st.incomingRetryRequestCounter
        ⟨receipt.sender, messageID⟩).getD 0 + 1 < 10 →
      (handleRetryReceiptCore st env receipt node messageID timestamp
        retryCount origMsg).sent.isSome = true) := by
  have hmar2 : ∀ m, env.marshalMessage m ≠ none := by
    intro m hn
    have h2 := hmar m
    rw [hn] at h2
    simp at h2
  unfold handleRetryReceiptCore
  dsimp only
  by_cases h10 : (mapLoad st.incomingRetryRequestCounter
      ⟨receipt.sender, messageID⟩).getD 0 + 1 ≥ 10
  · rw [if_pos h10]
    exact ⟨rfl, fun _ => rfl, fun hlt => absurd h10 (by omega)⟩
  · rw [if_neg h10, hown]
    simp only [Bool.false_eq_true, if_false, hveto]
    split
    · rename_i heq
      exact absurd heq (hmar2 _)
    · refine ⟨?_, ?_, ?_⟩
      · exact (retryBundleStage_ok _ _ _ _ _ _ _ _ _ henc hsend hkeys
          hfetch).2
      · intro hge
        exact absurd hge h10
      · intro _
        exact (retryBundleStage_ok _ _ _ _ _ _ _ _ _ henc hsend hkeys
          hfetch).1

theorem handleRetryReceiptCore_fetch_link (st : RetryState) (env : RetryEnv)
    (receipt : ReceiptEvent) (node : Node) (messageID : String)
    (timestamp : Int) (retryCount : Int) (origMsg : WAMessage)
    (h10 : (mapLoad st.incomingRetryRequestCounter
      ⟨receipt.sender, messageID⟩).getD 0 + 1 < 10)
    (hown : env.ownJID.isEmpty = false)
    (hveto : env.preRetryCallback = none)
    (hmar : ∀ m, (env.marshalMessage m).isSome = true)
    (hnokeys : node.getOptionalChildByTag "keys" = none) :
    (handleRetryReceiptCore st env receipt node messageID timestamp retryCount
      origMsg).fetchedPreKeys =
    (shouldRecreateSession st.sessionRecreateHistory env.containsSession
      env.now retryCount receipt.sender).1.2 := by
  have hmar2 : ∀ m, env.marshalMessage m ≠ none := by
    intro m hn
    have h2 := hmar m
    rw [hn] at h2
    simp at h2
  have hlt : ¬((mapLoad st.incomingRetryRequestCounter
      ⟨receipt.sender, messageID⟩).getD 0 + 1 ≥ 10) := by omega
  unfold handleRetryReceiptCore
  dsimp only
  rw [if_neg hlt, hown]
  simp only [Bool.false_eq_true, if_false, hveto]
  split
  · rename_i heq
    exact absurd heq (hmar2 _)
  · rw [retryBundleStage_fetched _ _ _ _ _ _ _ _ _ hnokeys]
    rw [(wrapMessageForRetry_fields _ _ _ _ _).2.2]

theorem wrapMessageForRetry_frame_alloc (st : RetryState) (env : RetryEnv)
    (receipt : ReceiptEvent) (origMsg : WAMessage)
    (C : List (incomingRetryKey × Int)) (H : List (JID × Nat))
    (hwf : st.heap.WFa) :
    (wrapMessageForRetry ⟨(st.heap.alloc origMsg).2, st.recent, C, H⟩ env
        receipt (st.heap.alloc origMsg).1 origMsg).1.heap.WFa ∧
    st.heap.next ≤ (wrapMessageForRetry ⟨(st.heap.alloc origMsg).2, st.recent,
        C, H⟩ env receipt (st.heap.alloc origMsg).1 origMsg).1.heap.next ∧
    ∀ a, a < st.heap.next →
      (wrapMessageForRetry ⟨(st.heap.alloc origMsg).2, st.recent, C, H⟩ env
        receipt (st.heap.alloc origMsg).1 origMsg).1.heap.read a =
      st.heap.read a := by
  have h2 := wrapMessageForRetry_heap
    ⟨(st.heap.alloc origMsg).2, st.recent, C, H⟩ env receipt
    (st.heap.alloc origMsg).1 origMsg (Heap.wfa_alloc _ _ hwf)
    (Nat.lt_succ_self st.heap.next)
  refine ⟨h2.1, le_trans (Nat.le_succ st.heap.next) h2.2.1, fun a ha => ?_⟩
  have h3 := h2.2.2 a (Nat.lt_succ_of_lt ha) (Nat.ne_of_lt ha)
  exact h3.trans (Heap.read_alloc_lt _ _ _ ha)

theorem handleRetryReceiptCore_frame (st : RetryState) (env : RetryEnv)
    (receipt : ReceiptEvent) (node : Node) (messageID : String)
    (timestamp : Int) (retryCount : Int) (origMsg : WAMessage)
    (hwf : st.heap.WFa) :
    (handleRetryReceiptCore st env receipt node messageID timestamp retryCount
      origMsg).state.recent = st.recent ∧
    (handleRetryReceiptCore st env receipt node messageID timestamp retryCount
      origMsg).state.heap.WFa ∧
    st.heap.next ≤ (handleRetryReceiptCore st env receipt node messageID
      timestamp retryCount origMsg).state.heap.next ∧
    ∀ a, a < st.heap.next →
      (handleRetryReceiptCore st env receipt node messageID timestamp
        retryCount origMsg).state.heap.read a = st.heap.read a := by
  have hwf1 : (st.heap.alloc origMsg).2.WFa := Heap.wfa_alloc _ _ hwf
  have hain : st.heap.next ≤ (st.heap.alloc origMsg).2.next :=
    Nat.le_succ st.heap.next
  have hr1 : ∀ a, a < st.heap.next →
      (st.heap.alloc origMsg).2.read a = st.heap.read a :=
    fun a ha => Heap.read_alloc_lt _ _ _ ha
  have hwrap := wrapMessageForRetry_frame_alloc st env receipt origMsg
    (mapStore st.incomingRetryRequestCounter ⟨receipt.sender, messageID⟩
      ((mapLoad st.incomingRetryRequestCounter
        ⟨receipt.sender, messageID⟩).getD 0 + 1))
    st.sessionRecreateHistory hwf
  have hwrapf := wrapMessageForRetry_fields
    ⟨(st.heap.alloc origMsg).2, st.recent,
      mapStore st.incomingRetryRequestCounter ⟨receipt.sender, messageID⟩
        ((mapLoad st.incomingRetryRequestCounter
          ⟨receipt.sender, messageID⟩).getD 0 + 1),
      st.sessionRecreateHistory⟩ env receipt (st.heap.alloc origMsg).1 origMsg
  unfold handleRetryReceiptCore
  dsimp only
  split
  · exact ⟨rfl, hwf1, hain, hr1⟩
  · split
    · exact ⟨rfl, hwf1, hain, hr1⟩
    · split
      · exact ⟨hwrapf.1, hwrap.1, hwrap.2.1, hwrap.2.2⟩
      · split
        · exact ⟨hwrapf.1, hwrap.1, hwrap.2.1, hwrap.2.2⟩
        · simp only [retryBundleStage_fields]
          exact ⟨hwrapf.1, hwrap.1, hwrap.2.1, hwrap.2.2⟩

/-! Top-level lemmas about handleRetryReceipt. -/

theorem handleRetryReceipt_eq_core (st : RetryState) (env : RetryEnv)
    (receipt : ReceiptEvent) (node : Node) (retryChild : Node)
    (messageID : String) (timestamp : Int) (retryCount : Int)
    (hc : node.getOptionalChildByTag "retry" = some retryChild)
    (hid : retryChild.agString "id" = some messageID)
    (ht : retryChild.agUnixTime "t" = some timestamp)
    (hcnt : retryChild.agInt "count" = some retryCount)
    (hrec : RecoverOK st env receipt messageID) :
    ∃ origMsg, handleRetryReceipt st env receipt node =
      handleRetryReceiptCore st env receipt node messageID timestamp
        retryCount origMsg := by
  obtain ⟨origMsg, hm⟩ := Option.isSome_iff_exists.mp hrec
  refine ⟨origMsg, ?_⟩
  unfold handleRetryReceipt
  simp only [hc, hid, ht, hcnt]
  rw [hm]

theorem handleRetryReceipt_frame (st : RetryState) (env : RetryEnv)
    (receipt : ReceiptEvent) (node : Node) (hwf : st.heap.WFa) :
    (handleRetryReceipt st env receipt node).state.recent = st.recent ∧
    (handleRetryReceipt st env receipt node).state.heap.WFa ∧
    st.heap.next ≤ (handleRetryReceipt st env receipt node).state.heap.next ∧
    ∀ a, a < st.heap.next →
      (handleRetryReceipt st env receipt node).state.heap.read a =
        st.heap.read a := by
  unfold handleRetryReceipt
  split
  · exact ⟨rfl, hwf, le_refl _, fun a _ => rfl⟩
  · split
    · dsimp only
      split
      · exact ⟨rfl, hwf, le_refl _, fun a _ => rfl⟩
      · exact handleRetryReceiptCore_frame _ _ _ _ _ _ _ _ hwf
    · exact ⟨rfl, hwf, le_refl _, fun a _ => rfl⟩

theorem handleRetryReceipt_call (st : RetryState) (env : RetryEnv)
    (receipt : ReceiptEvent) (node : Node) (retryChild : Node)
    (messageID : String) (timestamp : Int) (retryCount : Int)
    (henv : RetryEnvOK env node retryChild messageID timestamp retryCount)
    (hst : RetryStateOK st env receipt messageID) :
    mapLoad (handleRetryReceipt st env receipt
        node).state.incomingRetryRequestCounter ⟨receipt.sender, messageID⟩ =
      some ((mapLoad st.incomingRetryRequestCounter
        ⟨receipt.sender, messageID⟩).getD 0 + 1) ∧
    (handleRetryReceipt st env receipt node).error = none ∧
    ((10 : Int) ≤ (mapLoad st.incomingRetryRequestCounter
        ⟨receipt.sender, messageID⟩).getD 0 + 1 →
      (handleRetryReceipt st env receipt node).sent = none) ∧
    ((mapLoad st.incomingRetryRequestCounter
        ⟨receipt.sender, messageID⟩).getD 0 + 1 < 10 →
      (handleRetryReceipt st env receipt node).sent.isSome = true) := by
  obtain ⟨origMsg, heq⟩ := handleRetryReceipt_eq_core st env receipt node
    retryChild messageID timestamp retryCount henv.child_eq henv.id_eq
    henv.t_eq henv.count_eq hst.2
  rw [heq]
  refine ⟨handleRetryReceiptCore_counter _ _ _ _ _ _ _ _, ?_⟩
  exact handleRetryReceiptCore_run st env receipt node messageID timestamp
    retryCount origMsg henv.own_ne henv.no_veto henv.marshal_ok
    henv.encrypt_ok henv.send_ok henv.keys_ok henv.fetch_ok

theorem retryStateOK_step (st : RetryState) (env : RetryEnv)
    (receipt : ReceiptEvent) (node : Node) (messageID : String)
    (hst : RetryStateOK st env receipt messageID) :
    RetryStateOK (handleRetryReceipt st env receipt node).state env receipt
      messageID := by
  obtain ⟨hwf, hrec⟩ := hst
  have hf := handleRetryReceipt_frame st env receipt node hwf
  refine ⟨hf.2.1, ?_⟩
  unfold RecoverOK at hrec ⊢
  rw [hf.1]
  cases hload : mapLoad st.recent.recentMessagesMap
      ⟨receipt.chat, messageID⟩ with
  | none =>
      simp only [hload] at hrec ⊢
      exact hrec
  | some a =>
      simp only [hload] at hrec ⊢
      have ha := Heap.read_lt_of_some st.heap a hwf hrec
      rw [hf.2.2.2 a ha]
      exact hrec

theorem retryRun_counter (st : RetryState) (env : RetryEnv)
    (receipt : ReceiptEvent) (node : Node) (retryChild : Node)
    (messageID : String) (timestamp : Int) (retryCount : Int)
    (henv : RetryEnvOK env node retryChild messageID timestamp retryCount)
    (hst : RetryStateOK st env receipt messageID)
    (hc0 : mapLoad st.incomingRetryRequestCounter
      ⟨receipt.sender, messageID⟩ = none) (k : Nat) :
    RetryStateOK (retryRun st env receipt node k) env receipt messageID ∧
    mapLoad (retryRun st env receipt node k).incomingRetryRequestCounter
        ⟨receipt.sender, messageID⟩ =
      (if k = 0 then none else some (k : Int)) := by
  induction k with
  | zero => exact ⟨hst, by simp [retryRun, hc0]⟩
  | succ k ih =>
      have hcall := handleRetryReceipt_call (retryRun st env receipt node k)
        env receipt node retryChild messageID timestamp retryCount henv ih.1
      refine ⟨retryStateOK_step _ _ _ _ _ ih.1, ?_⟩
      show mapLoad (handleRetryReceipt (retryRun st env receipt node k) env
          receipt node).state.incomingRetryRequestCounter
        ⟨receipt.sender, messageID⟩ = _
      rw [hcall.1, ih.2]
      by_cases hk : k = 0
      · subst hk; simp
      · simp only [hk, if_false, Nat.succ_ne_zero]
        simp only [Option.getD_some]
        norm_num

theorem handleRetryReceipt_fetch_link (st : RetryState) (env : RetryEnv)
    (receipt : ReceiptEvent) (node : Node) (retryChild : Node)
    (messageID : String) (timestamp : Int) (retryCount : Int)
    (hc : node.getOptionalChildByTag "retry" = some retryChild)
    (hid : retryChild.agString "id" = some messageID)
    (ht : retryChild.agUnixTime "t" = some timestamp)
    (hcnt : retryChild.agInt "count" = some retryCount)
    (hrec : RecoverOK st env receipt messageID)
    (h10 : (mapLoad st.incomingRetryRequestCounter
      ⟨receipt.sender, messageID⟩).getD 0 + 1 < 10)
    (hown : env.ownJID.isEmpty = false)
    (hveto : env.preRetryCallback = none)
    (hmar : ∀ m, (env.marshalMessage m).isSome = true)
    (hnokeys : node.getOptionalChildByTag "keys" = none) :
    (handleRetryReceipt st env receipt node).fetchedPreKeys =
    (shouldRecreateSession st.sessionRecreateHistory env.containsSession
      env.now retryCount receipt.sender).1.2 := by
  obtain ⟨origMsg, heq⟩ := handleRetryReceipt_eq_core st env receipt node
    retryChild messageID timestamp retryCount hc hid ht hcnt hrec
  rw [heq]
  exact handleRetryReceiptCore_fetch_link st env receipt node messageID
    timestamp retryCount origMsg h10 hown hveto hmar hnokeys

theorem c1EnvOK : RetryEnvOK c1Env c1Node c1RetryChild "M1" 1700000000 1 :=
  ⟨rfl, rfl, rfl, rfl, by decide, rfl, fun _ => rfl, fun _ _ _ => rfl, rfl,
   fun h => absurd h (by decide), Or.inr ⟨rfl, by decide⟩⟩

theorem c1StateOK : RetryStateOK c1State c1Env c1Receipt "M1" := by
  constructor
  · intro a ha
    simp [c1State, mapKeys] at ha
  · rfl

/-! Claim theorems: outbound retry engine. -/

/-- C1 (amended): for every sequence of retry receipts for the same
(sender, message-id) pair whose plaintext is recoverable and whose
downstream collaborators (login state, veto, marshal, bundle, encrypt,
send) succeed, the first 9 receipts each produce one outbound message
stanza and return without error, and the 10th and all later receipts
produce no outbound stanza and return without error (silent drop): the
counter is incremented before the check and the drop fires as soon as it
reaches 10. -/
theorem claim_C1_retry_counter_cap (st : RetryState) (env : RetryEnv)
    (receipt : ReceiptEvent) (node : Node) (retryChild : Node)
    (messageID : String) (timestamp : Int) (retryCount : Int)
    (henv : RetryEnvOK env node retryChild messageID timestamp retryCount)
    (hst : RetryStateOK st env receipt messageID)
    (hc0 : mapLoad st.incomingRetryRequestCounter
      ⟨receipt.sender, messageID⟩ = none) (k : Nat) :
    (k + 1 ≤ 9 →
      (retryOutcomeAt st env receipt node k).sent.isSome = true ∧
      (retryOutcomeAt st env receipt node k).error = none) ∧
    (10 ≤ k + 1 →
      (retryOutcomeAt st env receipt node k).sent = none ∧
      (retryOutcomeAt st env receipt node k).error = none) := by
  have hrc := retryRun_counter st env receipt node retryChild messageID
    timestamp retryCount henv hst hc0 k
  have hcall := handleRetryReceipt_call (retryRun st env receipt node k) env
    receipt node retryChild messageID timestamp retryCount henv hrc.1
  unfold retryOutcomeAt
  constructor
  · intro h9
    refine ⟨hcall.2.2.2 ?_, hcall.2.1⟩
    rw [hrc.2]
    by_cases hk : k = 0
    · subst hk; simp
    · simp only [hk, if_false, Option.getD_some]
      omega
  · intro h10
    refine ⟨hcall.2.2.1 ?_, hcall.2.1⟩
    rw [hrc.2]
    have hk : k ≠ 0 := by omega
    simp only [hk, if_false, Option.getD_some]
    omega

/-- Witness for C1: on the concrete run, the 1st receipt produces a stanza
without error and the 10th produces none without error. -/
theorem claim_C1_witness :
    (retryOutcomeAt c1State c1Env c1Receipt c1Node 0).sent.isSome = true ∧
    (retryOutcomeAt c1State c1Env c1Receipt c1Node 9).sent = none ∧
    (retryOutcomeAt c1State c1Env c1Receipt c1Node 9).error = none := by
  have h0 := claim_C1_retry_counter_cap c1State c1Env c1Receipt c1Node
    c1RetryChild "M1" 1700000000 1 c1EnvOK c1StateOK rfl 0
  have h9 := claim_C1_retry_counter_cap c1State c1Env c1Receipt c1Node
    c1RetryChild "M1" 1700000000 1 c1EnvOK c1StateOK rfl 9
  exact ⟨(h0.1 (by omega)).1, (h9.2 (by omega)).1, (h9.2 (by omega)).2⟩

/-- Counterexample to C1 as stated: with the plaintext recoverable and
every collaborator succeeding, the 10th retry receipt for the same pair
already produces no outbound stanza (and returns without error), although
the claim says the first 10 each produce one and only the 11th is
dropped.  The 9th still produces one. -/
theorem claim_C1_counterexample :
    (retryOutcomeAt c1State c1Env c1Receipt c1Node 8).sent.isSome = true ∧
    (retryOutcomeAt c1State c1Env c1Receipt c1Node 9).sent = none ∧
    (retryOutcomeAt c1State c1Env c1Receipt c1Node 9).error = none :=
  ⟨rfl, rfl, rfl⟩

/-- C3: shouldRecreateSession recreates iff there is no Signal session, or
the retry count exceeds 1 and the recorded last recreation is absent or
more than an hour old; returning true records the current time for that
JID (and returning false records nothing); and on a receipt with no keys
child, handleRetryReceipt fetches a fresh prekey bundle exactly when the
predicate returns true. -/
theorem claim_C3_session_recreate_policy :
    (∀ (hist : List (JID × Nat)) (cs : Bool) (now : Nat) (rc : Int)
        (jid : JID),
      ((shouldRecreateSession hist cs now rc jid).1.2 = true ↔
        (cs = false ∨ (1 < rc ∧ (mapLoad hist jid = none ∨
          ∃ prev, mapLoad hist jid = some prev ∧
            prev + recreateSessionTimeout < now)))) ∧
      ((shouldRecreateSession hist cs now rc jid).1.2 = true →
        mapLoad (shouldRecreateSession hist cs now rc jid).2 jid = some now) ∧
      ((shouldRecreateSession hist cs now rc jid).1.2 = false →
        (shouldRecreateSession hist cs now rc jid).2 = hist)) ∧
    (∀ (st : RetryState) (env : RetryEnv) (receipt : ReceiptEvent)
        (node : Node) (retryChild : Node) (messageID : String)
        (timestamp : Int) (retryCount : Int),
      node.getOptionalChildByTag "retry" = some retryChild →
      retryChild.agString "id" = some messageID →
      retryChild.agUnixTime "t" = some timestamp →
      retryChild.agInt "count" = some retryCount →
      RecoverOK st env receipt messageID →
      (mapLoad st.incomingRetryRequestCounter
        ⟨receipt.sender, messageID⟩).getD 0 + 1 < 10 →
      env.ownJID.isEmpty = false →
      env.preRetryCallback = none →
      (∀ m, (env.marshalMessage m).isSome = true) →
      node.getOptionalChildByTag "keys" = none →
      (handleRetryReceipt st env receipt node).fetchedPreKeys =
        (shouldRecreateSession st.sessionRecreateHistory env.containsSession
          env.now retryCount receipt.sender).1.2) := by
  constructor
  · intro hist cs now rc jid
    exact ⟨shouldRecreateSession_iff hist cs now rc jid,
      shouldRecreateSession_records hist cs now rc jid,
      shouldRecreateSession_no_record hist cs now rc jid⟩
  · intro st env receipt node retryChild messageID timestamp retryCount hc
      hid ht hcnt hrec h10 hown hveto hmar hnokeys
    exact handleRetryReceipt_fetch_link st env receipt node retryChild
      messageID timestamp retryCount hc hid ht hcnt hrec h10 hown hveto hmar
      hnokeys

/-- Witness for C3: with an existing session, retry count 2 and the last
recreation 61 minutes ago the predicate recreates (and records the new
time); 59 minutes ago it does not; and on the concrete no-keys receipt the
engine does not fetch because the session exists and the count is 1. -/
theorem claim_C3_witness :
    (shouldRecreateSession [(jidA, 0)] true 3660 2 jidA).1.2 = true ∧
    mapLoad (shouldRecreateSession [(jidA, 0)] true 3660 2 jidA).2 jidA =
      some 3660 ∧
    (shouldRecreateSession [(jidA, 0)] true 3540 2 jidA).1.2 = false ∧
    (handleRetryReceipt c1State c1Env c1Receipt c1Node).fetchedPreKeys =
      false := by
  have h := claim_C3_session_recreate_policy
  have h1 : (shouldRecreateSession [(jidA, 0)] true 3660 2 jidA).1.2 =
      true := by
    rw [(h.1 [(jidA, 0)] true 3660 2 jidA).1]
    right
    refine ⟨by omega, Or.inr ⟨0, by decide, by decide⟩⟩
  have h2 := (h.1 [(jidA, 0)] true 3660 2 jidA).2.1 h1
  have h3 : (shouldRecreateSession [(jidA, 0)] true 3540 2 jidA).1.2 =
      false := by
    by_contra hc
    rw [Bool.not_eq_false] at hc
    rw [(h.1 [(jidA, 0)] true 3540 2 jidA).1] at hc
    rcases hc with hcs | ⟨_, hnone | ⟨prev, hprev, hlt⟩⟩
    · exact Bool.noConfusion hcs
    · simp [mapLoad] at hnone
    · simp [mapLoad] at hprev
      have hto : recreateSessionTimeout = 3600 := rfl
      omega
  have h4 := h.2 c1State c1Env c1Receipt c1Node c1RetryChild "M1"
    1700000000 1 rfl rfl rfl rfl c1StateOK.2 (by decide) (by decide) rfl
    (fun m => rfl) rfl
  refine ⟨h1, h2, h3, ?_⟩
  rw [h4]
  decide

/-- C9: handleRetryReceipt works on a clone of the cached plaintext: the
recent-message map, ring and pointer are unchanged by the call, and every
message the ring points to reads back identically afterwards (the group
and own-chat rewraps mutate only the freshly allocated clone). -/
theorem claim_C9_clone_frame (st : RetryState) (env : RetryEnv)
    (receipt : ReceiptEvent) (node : Node) (hwf : st.heap.WFa)
    (hvalid : ∀ k a, mapLoad st.recent.recentMessagesMap k = some a →
      a < st.heap.next) :
    (handleRetryReceipt st env receipt node).state.recent = st.recent ∧
    ∀ k a, mapLoad st.recent.recentMessagesMap k = some a →
      (handleRetryReceipt st env receipt node).state.heap.read a =
        st.heap.read a := by
  have hf := handleRetryReceipt_frame st env receipt node hwf
  exact ⟨hf.1, fun k a hka => hf.2.2.2 a (hvalid k a hka)⟩

/-- Witness for C9: on a concrete group retry that attaches a sender-key
distribution message to the clone, the ring still maps the key to the same
address and the message there is unchanged. -/
theorem claim_C9_witness :
    (handleRetryReceipt c9State c9Env c9Receipt c1Node).state.recent =
      c9State.recent ∧
    (handleRetryReceipt c9State c9Env c9Receipt
        c1Node).state.heap.read 0 = some c1Msg := by
  have h := claim_C9_clone_frame c9State c9Env c9Receipt c1Node
    (by
      intro a ha
      simp [c9State, mapKeys] at ha ⊢
      omega)
    (by
      intro k a hka
      simp only [c9State] at hka ⊢
      unfold mapLoad at hka
      split at hka
      · simp at hka
        omega
      · exact absurd hka (by simp [mapLoad]))
  refine ⟨h.1, ?_⟩
  rw [h.2 ⟨jidA, "M1"⟩ 0 (by simp [c9State, mapLoad])]
  rfl

/-! Lemmas about sendRetryReceipt (inbound retry engine). -/

theorem putUint32BE_length (v : Nat) : (putUint32BE v).length = 4 := rfl

theorem beUint32Value_putUint32BE (v : Nat) :
    beUint32Value (putUint32BE v) = v % 2 ^ 32 := by
  unfold putUint32BE beUint32Value
  norm_num
  omega

theorem sendRetryReceipt_messageRetries_simple (store : DeviceStoreInfo)
    (env : RetryReceiptEnv) (m : List (String × Int)) (node : Node)
    (force : Bool) (hin : nodeRetryCountInMsg node = 0) :
    (sendRetryReceipt store env m node force).messageRetries =
      mapStore m ((node.agString "id").getD "")
        ((mapLoad m ((node.agString "id").getD "")).getD 0 + 1) := by
  unfold sendRetryReceipt
  dsimp only
  rw [hin]
  simp only [gt_iff_lt, lt_self_iff_false, and_false, if_false]
  repeat' split
  all_goals rfl

theorem sendRetryReceipt_sends_iff (store : DeviceStoreInfo)
    (env : RetryReceiptEnv) (m : List (String × Int)) (node : Node)
    (force : Bool) (hmar : env.marshalAccount.isSome = true) :
    (sendRetryReceipt store env m node force).sent.isSome = true ↔
      updatedRetryCount m node < 5 := by
  obtain ⟨di, hdi⟩ := Option.isSome_iff_exists.mp hmar
  unfold sendRetryReceipt
  dsimp only
  by_cases h5 : updatedRetryCount m node ≥ 5
  · rw [if_pos h5]
    simp
    omega
  · rw [if_neg h5]
    have h5' : updatedRetryCount m node < 5 := by omega
    simp only [h5', iff_true]
    split
    · cases hk : env.genOnePreKey with
      | none => rfl
      | some key => rw [hdi]; rfl
    · rfl

/-! Claim theorems: inbound retry engine. -/

/-- C4: a retry receipt emitted by sendRetryReceipt (prekey generation and
account marshaling succeeding, updated count below the send ceiling) is a
receipt stanza of type retry whose children are, in order: a retry child
carrying the updated count, the original id and the original timestamp;
then a registration child holding the registration id as exactly 4
big-endian bytes; then a keys child exactly when the updated count exceeds
1 or identity inclusion is forced, its children in the order type,
identity, fresh prekey, signed prekey, device-identity. -/
theorem claim_C4_retry_receipt_shape (store : DeviceStoreInfo)
    (env : RetryReceiptEnv) (m : List (String × Int)) (node : Node)
    (force : Bool) (key : PreKey) (di : List Nat)
    (hkey : env.genOnePreKey = some key)
    (hdi : env.marshalAccount = some di)
    (hlt : updatedRetryCount m node < 5) :
    ∃ p, (sendRetryReceipt store env m node force).sent = some p ∧
      p.tag = "receipt" ∧
      p.attr "type" = some (.str "retry") ∧
      p.attr "id" = some (.str ((node.agString "id").getD "")) ∧
      p.getChildren =
        [Node.mk "retry"
          [("count", .int (updatedRetryCount m node)),
           ("id", .str ((node.agString "id").getD "")),
           ("t", (node.attr "t").getD (.str "")), ("v", .int 1)] none [],
         Node.mk "registration" []
           (some (putUint32BE store.registrationID)) []] ++
        (if 1 < updatedRetryCount m node ∨ force = true then
          [Node.mk "keys" [] none
            [Node.mk "type" [] (some [djbType]) [],
             Node.mk "identity" [] (some store.identityKeyPub) [],
             preKeyToNode key, preKeyToNode store.signedPreKey,
             Node.mk "device-identity" [] (some di) []]]
         else []) ∧
      (putUint32BE store.registrationID).length = 4 ∧
      beUint32Value (putUint32BE store.registrationID) =
        store.registrationID % 2 ^ 32 := by
  have h5 : ¬(updatedRetryCount m node ≥ 5) := by omega
  unfold sendRetryReceipt
  dsimp only
  rw [if_neg h5]
  by_cases hkb : 1 < updatedRetryCount m node ∨ force = true
  · rw [if_pos hkb, hkey, hdi, if_pos hkb]
    refine ⟨_, rfl, rfl, ?_, ?_, ?_, rfl, beUint32Value_putUint32BE _⟩
    · cases hr2 : node.attr "recipient" <;>
        cases hp2 : node.attr "participant" <;>
          simp [Node.attr, Node.attrs, lookupAttr]
    · cases hr2 : node.attr "recipient" <;>
        cases hp2 : node.attr "participant" <;>
          simp [Node.attr, Node.attrs, lookupAttr]
    · rfl
  · rw [if_neg hkb, if_neg hkb]
    refine ⟨_, rfl, rfl, ?_, ?_, ?_, rfl, beUint32Value_putUint32BE _⟩
    · cases hr2 : node.attr "recipient" <;>
        cases hp2 : node.attr "participant" <;>
          simp [Node.attr, Node.attrs, lookupAttr]
    · cases hr2 : node.attr "recipient" <;>
        cases hp2 : node.attr "participant" <;>
          simp [Node.attr, Node.attrs, lookupAttr]
    · rfl

/-- C5: for a message stanza with a single enc child carrying no count
attribute (account marshaling succeeding), the first four sendRetryReceipt
calls for that id each emit exactly one retry receipt and the fifth and all
later calls emit none; the per-id counter is incremented on every call. -/
theorem claim_C5_inbound_retry_ceiling (store : DeviceStoreInfo)
    (env : RetryReceiptEnv) (node : Node) (force : Bool) (c : Node)
    (hc : node.getChildren = [c]) (henc : c.tag = "enc")
    (hnocount : c.agInt "count" = none)
    (hmar : env.marshalAccount.isSome = true) (k : Nat) :
    ((sendRetryOutcomeAt store env node force k).sent.isSome = true ↔
      k < 4) ∧
    mapLoad (messageRetriesAfter store env node force (k + 1))
        ((node.agString "id").getD "") = some ((k : Int) + 1) := by
  have hin : nodeRetryCountInMsg node = 0 := by
    unfold nodeRetryCountInMsg
    rw [hc]
    simp [henc, Node.agOptionalInt, hnocount]
  have hcnt : ∀ j : Nat, mapLoad (messageRetriesAfter store env node force j)
      ((node.agString "id").getD "") =
      (if j = 0 then none else some (j : Int)) := by
    intro j
    induction j with
    | zero => simp [messageRetriesAfter, mapLoad]
    | succ j ih =>
        show mapLoad (sendRetryReceipt store env
          (messageRetriesAfter store env node force j) node
          force).messageRetries ((node.agString "id").getD "") = _
        rw [sendRetryReceipt_messageRetries_simple store env _ node force hin,
          mapLoad_store_self, ih]
        by_cases hj : j = 0
        · subst hj; simp
        · simp only [hj, if_false, Option.getD_some, Nat.succ_ne_zero]
          norm_num
  have hupd : updatedRetryCount (messageRetriesAfter store env node force k)
      node = (k : Int) + 1 := by
    unfold updatedRetryCount
    dsimp only
    rw [hin]
    simp only [gt_iff_lt, lt_self_iff_false, and_false, if_false]
    rw [hcnt k]
    by_cases hk : k = 0
    · subst hk; simp
    · simp [hk]
  constructor
  · unfold sendRetryOutcomeAt
    rw [sendRetryReceipt_sends_iff store env _ node force hmar, hupd]
    constructor
    · intro h; omega
    · intro h; omega
  · exact hcnt (k + 1)

/-- Witness for C5: on the concrete stanza the 4th call still sends, the
5th does not, and the counter reads 5 after five calls. -/
theorem claim_C5_witness :
    ((sendRetryOutcomeAt c5Store c5Env c5Node false 3).sent.isSome = true) ∧
    ((sendRetryOutcomeAt c5Store c5Env c5Node false 4).sent.isSome = false) ∧
    mapLoad (messageRetriesAfter c5Store c5Env c5Node false 5)
      ((c5Node.agString "id").getD "") = some 5 := by
  have h3 := claim_C5_inbound_retry_ceiling c5Store c5Env c5Node false
    c5EncChild rfl rfl rfl rfl 3
  have h4 := claim_C5_inbound_retry_ceiling c5Store c5Env c5Node false
    c5EncChild rfl rfl rfl rfl 4
  refine ⟨h3.1.mpr (by omega), ?_, ?_⟩
  · rw [Bool.eq_false_iff]
    intro hcontra
    exact absurd (h4.1.mp hcontra) (by omega)
  · have := h4.2
    norm_num at this
    exact this

/-- Witness for C4: applying the shape theorem at the concrete store, env
and stanza with force = true yields the receipt with the keys child and the
4-byte big-endian registration id. -/
theorem claim_C4_witness :
    ∃ p, (sendRetryReceipt c5Store c5Env [] c5Node true).sent = some p ∧
      p.tag = "receipt" ∧
      p.getChildren.length = 3 ∧
      beUint32Value (putUint32BE c5Store.registrationID) =
        305419896 := by
  obtain ⟨p, hp, htag, _, _, hch, hlen, hbe⟩ :=
    claim_C4_retry_receipt_shape c5Store c5Env [] c5Node true ⟨7, [1, 2]⟩
      [3, 4] rfl rfl (by decide)
  refine ⟨p, hp, htag, ?_, ?_⟩
  · rw [hch]
    decide
  · rw [hbe]
    rfl

/-- C10: when a keys block is called for (updated count above 1 or identity
forced) the two failure modes differ: a failed prekey generation still
sends the receipt, just without the keys child, while a failed account
marshal aborts the send entirely. -/
theorem claim_C10_keys_failure_asymmetry (store : DeviceStoreInfo)
    (env : RetryReceiptEnv) (m : List (String × Int)) (node : Node)
    (force : Bool)
    (hneed : 1 < updatedRetryCount m node ∨ force = true)
    (hlt : updatedRetryCount m node < 5) :
    (env.genOnePreKey = none →
      ∃ p, (sendRetryReceipt store env m node force).sent = some p ∧
        p.getChildren.length = 2 ∧
        findChildByTag p.getChildren "keys" = none) ∧
    (∀ key, env.genOnePreKey = some key → env.marshalAccount = none →
      (sendRetryReceipt store env m node force).sent = none) := by
  have h5 : ¬(updatedRetryCount m node ≥ 5) := by omega
  constructor
  · intro hgen
    unfold sendRetryReceipt
    dsimp only
    rw [if_neg h5, if_pos hneed, hgen]
    exact ⟨_, rfl, rfl, by simp [findChildByTag, Node.tag]⟩
  · intro key hgen hmar
    unfold sendRetryReceipt
    dsimp only
    rw [if_neg h5, if_pos hneed, hgen, hmar]

/-- Witness for C10: at the concrete inputs, prekey-generation failure
still sends a two-child receipt and marshal failure sends nothing. -/
theorem claim_C10_witness :
    (∃ p, (sendRetryReceipt c5Store ⟨none, some [3, 4]⟩ [] c5Node
        true).sent = some p ∧ p.getChildren.length = 2) ∧
    (sendRetryReceipt c5Store ⟨some ⟨7, [1, 2]⟩, none⟩ [] c5Node
        true).sent = none := by
  have h1 := claim_C10_keys_failure_asymmetry c5Store ⟨none, some [3, 4]⟩ []
    c5Node true (Or.inr rfl) (by decide)
  have h2 := claim_C10_keys_failure_asymmetry c5Store
    ⟨some ⟨7, [1, 2]⟩, none⟩ [] c5Node true (Or.inr rfl) (by decide)
  obtain ⟨p, hp, hlen, _⟩ := h1.1 rfl
  exact ⟨⟨p, hp, hlen⟩, h2.2 ⟨7, [1, 2]⟩ rfl rfl⟩

/-! Claim theorem: call-signaling handler. -/

/-- C6: every call stanza is acked exactly once; a stanza without exactly
one child, or whose single child has an unknown tag, dispatches exactly one
UnknownCallEvent and nothing typed; a known child tag dispatches exactly
one typed event of the matching variant with from and t from the outer
attributes and call-creator and call-id from the child, terminate carrying
reason and offer-notice carrying media and type. -/
theorem claim_C6_call_event_dispatch (n : Node) :
    (handleCallEvent n).acksSent = 1 ∧
    (n.getChildren.length ≠ 1 →
      (handleCallEvent n).events = [.unknownCallEvent n]) ∧
    (∀ c, n.getChildren = [c] → c.tag ∉ knownCallTags →
      (handleCallEvent n).events = [.unknownCallEvent n]) ∧
    (∀ c, n.getChildren = [c] → c.tag ∈ knownCallTags →
      ∃ e, (handleCallEvent n).events = [e] ∧ e.isUnknown = false ∧
        e.variantTag = some c.tag ∧
        e.meta? = some ⟨n.agJIDD "from", n.agUnixTimeD "t",
          c.agJIDD "call-creator", c.agStringD "call-id"⟩ ∧
        (c.tag = "terminate" → e.reason? = some (c.agStringD "reason")) ∧
        (c.tag = "offer_notice" → e.media? = some (c.agStringD "media") ∧
          e.typeAttr? = some (c.agStringD "type"))) := by
  refine ⟨?_, ?_, ?_, ?_⟩
  · unfold handleCallEvent
    dsimp only
    repeat' split
    all_goals rfl
  · intro hne
    unfold handleCallEvent
    rw [if_pos hne]
  · intro c hc htag
    simp only [knownCallTags, List.mem_cons, List.mem_singleton,
      List.mem_nil_iff, or_false, not_or] at htag
    obtain ⟨h1, h2, h3, h4, h5, h6, h7⟩ := htag
    unfold handleCallEvent
    rw [hc]
    simp [h1, h2, h3, h4, h5, h6, h7]
  · intro c hc htag
    simp only [knownCallTags, List.mem_cons, List.mem_singleton,
      List.mem_nil_iff, or_false] at htag
    have hsingle : handleCallEvent n =
        (if c.tag = "offer" then
          ⟨1, [.callOffer (callBasicMeta n c) (callRemoteMeta n) c]⟩
        else if c.tag = "offer_notice" then
          ⟨1, [.callOfferNotice (callBasicMeta n c) (c.agStringD "media")
            (c.agStringD "type") c]⟩
        else if c.tag = "relaylatency" then
          ⟨1, [.callRelayLatency (callBasicMeta n c) c]⟩
        else if c.tag = "accept" then
          ⟨1, [.callAccept (callBasicMeta n c) (callRemoteMeta n) c]⟩
        else if c.tag = "preaccept" then
          ⟨1, [.callPreAccept (callBasicMeta n c) (callRemoteMeta n) c]⟩
        else if c.tag = "transport" then
          ⟨1, [.callTransport (callBasicMeta n c) (callRemoteMeta n) c]⟩
        else if c.tag = "terminate" then
          ⟨1, [.callTerminate (callBasicMeta n c) (c.agStringD "reason") c]⟩
        else ⟨1, [.unknownCallEvent n]⟩ : CallHandlerOutput) := by
      unfold handleCallEvent
      rw [hc]
      rw [if_neg (by simp)]
      rfl
    rcases htag with h | h | h | h | h | h | h
    · refine ⟨.callOffer (callBasicMeta n c) (callRemoteMeta n) c, ?_, rfl,
        ?_, rfl, ?_, ?_⟩
      · rw [hsingle, h]
        simp
      · rw [h]
        rfl
      · intro hx; rw [h] at hx; exact absurd hx (by decide)
      · intro hx; rw [h] at hx; exact absurd hx (by decide)
    · refine ⟨.callOfferNotice (callBasicMeta n c) (c.agStringD "media")
        (c.agStringD "type") c, ?_, rfl, ?_, rfl, ?_, ?_⟩
      · rw [hsingle, h]
        simp
      · rw [h]
        rfl
      · intro hx; rw [h] at hx; exact absurd hx (by decide)
      · intro _; exact ⟨rfl, rfl⟩
    · refine ⟨.callRelayLatency (callBasicMeta n c) c, ?_, rfl, ?_, rfl,
        ?_, ?_⟩
      · rw [hsingle, h]
        simp
      · rw [h]
        rfl
      · intro hx; rw [h] at hx; exact absurd hx (by decide)
      · intro hx; rw [h] at hx; exact absurd hx (by decide)
    · refine ⟨.callAccept (callBasicMeta n c) (callRemoteMeta n) c, ?_, rfl,
        ?_, rfl, ?_, ?_⟩
      · rw [hsingle, h]
        simp
      · rw [h]
        rfl
      · intro hx; rw [h] at hx; exact absurd hx (by decide)
      · intro hx; rw [h] at hx; exact absurd hx (by decide)
    · refine ⟨.callPreAccept (callBasicMeta n c) (callRemoteMeta n) c, ?_,
        rfl, ?_, rfl, ?_, ?_⟩
      · rw [hsingle, h]
        simp
      · rw [h]
        rfl
      · intro hx; rw [h] at hx; exact absurd hx (by decide)
      · intro hx; rw [h] at hx; exact absurd hx (by decide)
    · refine ⟨.callTransport (callBasicMeta n c) (callRemoteMeta n) c, ?_,
        rfl, ?_, rfl, ?_, ?_⟩
      · rw [hsingle, h]
        simp
      · rw [h]
        rfl
      · intro hx; rw [h] at hx; exact absurd hx (by decide)
      · intro hx; rw [h] at hx; exact absurd hx (by decide)
    · refine ⟨.callTerminate (callBasicMeta n c) (c.agStringD "reason") c,
        ?_, rfl, ?_, rfl, ?_, ?_⟩
      · rw [hsingle, h]
        simp
      · rw [h]
        rfl
      · intro _; rfl
      · intro hx; rw [h] at hx; exact absurd hx (by decide)

/-- Witness for C6: a bogus child produces exactly one UnknownCallEvent,
and a concrete offer stanza produces exactly one CallOffer with the meta
read from the right attributes. -/
theorem claim_C6_witness :
    (handleCallEvent c6Bogus).acksSent = 1 ∧
    (handleCallEvent c6Bogus).events = [.unknownCallEvent c6Bogus] ∧
    ∃ e, (handleCallEvent c6Node).events = [e] ∧
      e.variantTag = some "offer" ∧
      e.meta? = some ⟨jidA, 1700000000, jidA, "C1"⟩ := by
  have hb := claim_C6_call_event_dispatch c6Bogus
  have ho := claim_C6_call_event_dispatch c6Node
  refine ⟨hb.1, hb.2.2.1 (.mk "bogus" [] none []) rfl (by decide), ?_⟩
  obtain ⟨e, he, _, hv, hm, _, _⟩ := ho.2.2.2 c6OfferChild rfl (by decide)
  refine ⟨e, he, ?_, ?_⟩
  · rw [hv]
    rfl
  · rw [hm]
    rfl

/-! Claim theorem: connection supervisor. -/

/-- C7: Connect fails with AlreadyConnected iff a socket handle exists and
reports itself connected; with a dead socket it first runs the internal
disconnect (every waiter receives the end-of-stream node and the waiter map
is cleared), resets the expected-disconnect flag, and installs the new
socket when the frame socket and handshake succeed. -/
theorem claim_C7_connect (st : ConnState) (env : ConnectEnv) :
    ((connect st env).1 = some .alreadyConnected ↔
      ∃ s, st.socket = some s ∧ s.isConnected = true) ∧
    (∀ s, st.socket = some s → s.isConnected = false →
      ((connect st env).2.2 =
        st.responseWaiters.map (fun w => (w.2, xmlStreamEndNode)) ∧
       (connect st env).2.1.responseWaiters = [] ∧
       (connect st env).2.1.expectedDisconnect = false ∧
       (env.fsConnectOk = true → env.handshakeOk = true →
         (connect st env).1 = none ∧
         (connect st env).2.1.socket = some env.newSocket))) := by
  cases hs : st.socket with
  | none =>
      constructor
      · unfold connect connectFresh
        rw [hs]
        constructor
        · intro h
          cases hfs : env.fsConnectOk <;> cases hhk : env.handshakeOk <;>
            simp [hfs, hhk] at h
        · rintro ⟨s, hss, _⟩
          exact Option.noConfusion hss
      · intro s hss
        exact Option.noConfusion hss
  | some s0 =>
      cases hconn : s0.isConnected with
      | true =>
          constructor
          · unfold connect
            rw [hs]
            simp [hconn]
          · intro s hss hf
            injection hss with hss
            rw [← hss] at hf
            rw [hconn] at hf
            exact Bool.noConfusion hf
      | false =>
          have hred : connect st env =
              connectFresh ⟨none, [], st.expectedDisconnect⟩
                env (st.responseWaiters.map
                  (fun w => (w.2, xmlStreamEndNode))) := by
            unfold connect
            rw [hs]
            simp only [hconn, Bool.false_eq_true, if_false]
            unfold unlockedDisconnect clearResponseWaiters
            rw [hs]
          rw [hred]
          constructor
          · unfold connectFresh
            constructor
            · intro h
              cases hfs : env.fsConnectOk <;> cases hhk : env.handshakeOk <;>
                simp [hfs, hhk] at h
            · rintro ⟨s, hss, hcs⟩
              injection hss with hss
              rw [← hss] at hcs
              rw [hconn] at hcs
              exact Bool.noConfusion hcs
          · intro s hss hf
            unfold connectFresh
            cases hfs : env.fsConnectOk with
            | false => simp [hfs]
            | true =>
                cases hhk : env.handshakeOk with
                | false => simp [hfs, hhk]
                | true => simp [hfs, hhk]

/-- Witness for C7: a live socket yields AlreadyConnected; a dead socket is
disconnected first (the waiter gets the end-of-stream node, the waiter map
is cleared, the flag is reset) and the new socket is installed. -/
theorem claim_C7_witness :
    (connect ⟨some ⟨true, 0⟩, [("iq1", 5)], false⟩
      ⟨true, true, ⟨true, 1⟩⟩).1 = some .alreadyConnected ∧
    (connect ⟨some ⟨false, 0⟩, [("iq1", 5)], true⟩
      ⟨true, true, ⟨true, 1⟩⟩).2.2 = [(5, xmlStreamEndNode)] ∧
    (connect ⟨some ⟨false, 0⟩, [("iq1", 5)], true⟩
      ⟨true, true, ⟨true, 1⟩⟩).2.1.responseWaiters = [] ∧
    (connect ⟨some ⟨false, 0⟩, [("iq1", 5)], true⟩
      ⟨true, true, ⟨true, 1⟩⟩).2.1.expectedDisconnect = false ∧
    (connect ⟨some ⟨false, 0⟩, [("iq1", 5)], true⟩
      ⟨true, true, ⟨true, 1⟩⟩).2.1.socket = some ⟨true, 1⟩ := by
  have h1 := claim_C7_connect ⟨some ⟨true, 0⟩, [("iq1", 5)], false⟩
    ⟨true, true, ⟨true, 1⟩⟩
  have h2 := claim_C7_connect ⟨some ⟨false, 0⟩, [("iq1", 5)], true⟩
    ⟨true, true, ⟨true, 1⟩⟩
  obtain ⟨hdel, hwait, hexp, himp⟩ := h2.2 ⟨false, 0⟩ rfl rfl
  refine ⟨h1.1.mpr ⟨⟨true, 0⟩, rfl, rfl⟩, ?_, hwait, hexp,
    (himp rfl rfl).2⟩
  rw [hdel]
  rfl

/-! Claim theorem: event-handler registry. -/

theorem removeHandlerFromList_mem (hs : List wrappedEventHandler)
    (id : Nat) :
    (removeHandlerFromList hs id).1 = true ↔
      id ∈ hs.map wrappedEventHandler.id := by
  induction hs with
  | nil => simp [removeHandlerFromList]
  | cons h t ih =>
      by_cases hh : h.id = id
      · simp [removeHandlerFromList, hh]
      · simp only [removeHandlerFromList, hh, if_false, List.map_cons,
          List.mem_cons, ih]
        constructor
        · intro hx; exact Or.inr hx
        · rintro (hx | hx)
          · exact absurd hx.symm hh
          · exact hx

theorem removeHandlerFromList_not_mem (hs : List wrappedEventHandler)
    (id : Nat) (h : (removeHandlerFromList hs id).1 = false) :
    (removeHandlerFromList hs id).2 = hs := by
  induction hs with
  | nil => rfl
  | cons hd t ih =>
      by_cases hh : hd.id = id
      · simp [removeHandlerFromList, hh] at h
      · simp only [removeHandlerFromList, hh, if_false] at h ⊢
        rw [ih h]

theorem filter_eq_self_of_not_mem (t : List wrappedEventHandler) (id : Nat)
    (hnm : id ∉ t.map wrappedEventHandler.id) :
    t.filter (fun h => decide (h.id ≠ id)) = t := by
  induction t with
  | nil => rfl
  | cons hd t ih =>
      simp only [List.map_cons, List.mem_cons, not_or] at hnm
      have hne : hd.id ≠ id := fun hx => hnm.1 hx.symm
      rw [List.filter_cons]
      simp [hne, ih hnm.2]
      intro a ha hx
      have hmem := List.mem_map_of_mem wrappedEventHandler.id ha
      rw [hx] at hmem
      exact hnm.2 hmem

theorem removeHandlerFromList_nodup (hs : List wrappedEventHandler)
    (id : Nat) (hnd : (hs.map wrappedEventHandler.id).Nodup) :
    (removeHandlerFromList hs id).2 =
      hs.filter (fun h => decide (h.id ≠ id)) := by
  induction hs with
  | nil => rfl
  | cons hd t ih =>
      simp only [List.map_cons, List.nodup_cons] at hnd
      by_cases hh : hd.id = id
      · simp only [removeHandlerFromList, hh, if_true]
        rw [List.filter_cons]
        simp [hh]
        have hself := (filter_eq_self_of_not_mem t id (hh ▸ hnd.1)).symm
        simpa using hself
      · simp only [removeHandlerFromList, hh, if_false]
        rw [List.filter_cons]
        simp [hh, ih hnd.2]

/-- C8 (amended): as long as the uint32 id counter does not wrap (fewer
than 2^32 registrations, hypothesis hw), AddEventHandler returns a
strictly increasing id on each call and appends the handler at the end;
unconditionally, RemoveEventHandler returns true iff a handler with the id
is registered, removes exactly that handler keeping the survivors in
registration order (filter formulation, valid because registered ids are
distinct), and returns false leaving the state untouched otherwise.  (The
wrap hypothesis is necessary: atomic.AddUint32 wraps to 0 at 2^32, see
the counterexample.) -/
theorem claim_C8_event_handler_registry (st : EventHandlersState)
    (id : Nat) (hw : st.nextHandlerID + 2 < 2 ^ 32) :
    ((addEventHandler st).1 = st.nextHandlerID + 1 ∧
     (addEventHandler st).2.nextHandlerID = (addEventHandler st).1 ∧
     (addEventHandler (addEventHandler st).2).1 = st.nextHandlerID + 2 ∧
     st.nextHandlerID < (addEventHandler st).1 ∧
     (addEventHandler st).1 < (addEventHandler (addEventHandler st).2).1 ∧
     (addEventHandler st).2.eventHandlers =
       st.eventHandlers ++ [⟨true, st.nextHandlerID + 1⟩]) ∧
    ((removeEventHandler st id).1 = true ↔
      id ∈ st.eventHandlers.map wrappedEventHandler.id) ∧
    ((removeEventHandler st id).1 = false →
      (removeEventHandler st id).2 = st) ∧
    ((st.eventHandlers.map wrappedEventHandler.id).Nodup →
      (removeEventHandler st id).2.eventHandlers =
        st.eventHandlers.filter (fun h => decide (h.id ≠ id))) := by
  have h1 : (addEventHandler st).1 = st.nextHandlerID + 1 := by
    show (st.nextHandlerID + 1) % 2 ^ 32 = st.nextHandlerID + 1
    exact Nat.mod_eq_of_lt (by omega)
  have h3 : (addEventHandler (addEventHandler st).2).1 =
      st.nextHandlerID + 2 := by
    show ((st.nextHandlerID + 1) % 2 ^ 32 + 1) % 2 ^ 32 =
      st.nextHandlerID + 2
    rw [Nat.mod_eq_of_lt (show st.nextHandlerID + 1 < 2 ^ 32 by omega)]
    exact Nat.mod_eq_of_lt (by omega)
  refine ⟨⟨h1, rfl, h3, ?_, ?_, ?_⟩, ?_, ?_, ?_⟩
  · rw [h1]
    omega
  · rw [h1, h3]
    omega
  · show st.eventHandlers ++ [⟨true, (st.nextHandlerID + 1) % 2 ^ 32⟩] =
      st.eventHandlers ++ [⟨true, st.nextHandlerID + 1⟩]
    rw [Nat.mod_eq_of_lt (show st.nextHandlerID + 1 < 2 ^ 32 by omega)]
  · exact removeHandlerFromList_mem st.eventHandlers id
  · intro hf
    unfold removeEventHandler at hf ⊢
    dsimp only at hf ⊢
    rw [removeHandlerFromList_not_mem st.eventHandlers id hf]
  · intro hnd
    exact removeHandlerFromList_nodup st.eventHandlers id hnd

/-- C8, counterexample to the unamended claim: from the registry state
whose last registration returned id 2^32 - 1, the next AddEventHandler
call returns id 0 (atomic.AddUint32 wraps), so the returned ids are not
strictly increasing on every call. -/
theorem claim_C8_counterexample :
    (addEventHandler ⟨2 ^ 32 - 1, [⟨true, 2 ^ 32 - 1⟩]⟩).1 = 0 ∧
    ¬ ((⟨2 ^ 32 - 1, [⟨true, 2 ^ 32 - 1⟩]⟩ :
        EventHandlersState).nextHandlerID <
      (addEventHandler ⟨2 ^ 32 - 1, [⟨true, 2 ^ 32 - 1⟩]⟩).1) := by
  constructor
  · show (2 ^ 32 - 1 + 1) % 2 ^ 32 = 0
    norm_num
  · show ¬ (2 ^ 32 - 1 < (2 ^ 32 - 1 + 1) % 2 ^ 32)
    norm_num

/-- Witness for C8: on a concrete three-handler registry, removing the
middle id returns true and keeps the outer two in order; removing an
unknown id returns false and changes nothing. -/
theorem claim_C8_witness :
    (removeEventHandler ⟨3, [⟨true, 1⟩, ⟨true, 2⟩, ⟨true, 3⟩]⟩ 2).1 =
      true ∧
    (removeEventHandler ⟨3, [⟨true, 1⟩, ⟨true, 2⟩, ⟨true, 3⟩]⟩
      2).2.eventHandlers = [⟨true, 1⟩, ⟨true, 3⟩] ∧
    (removeEventHandler ⟨3, [⟨true, 1⟩, ⟨true, 2⟩, ⟨true, 3⟩]⟩ 7).1 =
      false ∧
    (removeEventHandler ⟨3, [⟨true, 1⟩, ⟨true, 2⟩, ⟨true, 3⟩]⟩ 7).2 =
      ⟨3, [⟨true, 1⟩, ⟨true, 2⟩, ⟨true, 3⟩]⟩ := by
  have h2 := claim_C8_event_handler_registry
    ⟨3, [⟨true, 1⟩, ⟨true, 2⟩, ⟨true, 3⟩]⟩ 2 (by norm_num)
  have h7 := claim_C8_event_handler_registry
    ⟨3, [⟨true, 1⟩, ⟨true, 2⟩, ⟨true, 3⟩]⟩ 7 (by norm_num)
  refine ⟨h2.2.1.mpr (by decide), ?_, ?_, ?_⟩
  · rw [h2.2.2.2 (by decide)]
    decide
  · rw [Bool.eq_false_iff]
    intro hx
    exact absurd (h7.2.1.mp hx) (by decide)
  · apply h7.2.2.1
    rw [Bool.eq_false_iff]
    intro hx
    exact absurd (h7.2.1.mp hx) (by decide)

theorem lastIdx_lt (n i : Nat) (h : i < n) : lastIdx n i < n := by
  unfold lastIdx
  omega

theorem lastIdx_ge (n i : Nat) (h : i < n) : n - 256 ≤ lastIdx n i := by
  unfold lastIdx
  omega

theorem lastIdx_succ_eq (n i : Nat) (hi : i < 256) (hm : n % 256 = i) :
    lastIdx (n + 1) i = n := by
  unfold lastIdx
  omega

theorem lastIdx_succ_ne (n i : Nat) (hi : i < 256) (hin : i < n)
    (hm : n % 256 ≠ i) : lastIdx (n + 1) i = lastIdx n i := by
  unfold lastIdx
  omega

theorem lastIdx_mod_self (n : Nat) (h : 256 ≤ n) :
    lastIdx n (n % 256) = n - 256 := by
  unfold lastIdx
  omega

theorem lastIdx_of_mod (n j : Nat) (h1 : n - 256 ≤ j) (h2 : j < n) :
    lastIdx n (j % 256) = j := by
  unfold lastIdx
  omega

theorem mapKeys_cons {K V : Type} (p : K × V) (m : List (K × V)) :
    mapKeys (p :: m) = p.1 :: mapKeys m := rfl

theorem mem_mapKeys_delete {K V : Type} [DecidableEq K] (m : List (K × V))
    (k k2 : K) :
    k2 ∈ mapKeys (mapDelete m k) ↔ (k2 ∈ mapKeys m ∧ k2 ≠ k) := by
  induction m with
  | nil => simp [mapDelete, mapKeys]
  | cons p rest ih =>
      obtain ⟨k3, v⟩ := p
      by_cases h3 : k3 = k
      · rw [show mapDelete ((k3, v) :: rest) k = mapDelete rest k from by
          simp [mapDelete, h3]]
        rw [ih, mapKeys_cons, List.mem_cons]
        subst h3
        constructor
        · rintro ⟨hm, hne⟩
          exact ⟨Or.inr hm, hne⟩
        · rintro ⟨hm | hm, hne⟩
          · exact absurd hm hne
          · exact ⟨hm, hne⟩
      · rw [show mapDelete ((k3, v) :: rest) k = (k3, v) :: mapDelete rest k
          from by simp [mapDelete, h3]]
        rw [mapKeys_cons, mapKeys_cons, List.mem_cons, List.mem_cons, ih]
        constructor
        · rintro (rfl | ⟨hm, hne⟩)
          · exact ⟨Or.inl rfl, h3⟩
          · exact ⟨Or.inr hm, hne⟩
        · rintro ⟨hm | hm, hne⟩
          · exact Or.inl hm
          · exact Or.inr ⟨hm, hne⟩

theorem mem_mapKeys_store {K V : Type} [DecidableEq K] (m : List (K × V))
    (k : K) (v : V) (k2 : K) :
    k2 ∈ mapKeys (mapStore m k v) ↔ (k2 = k ∨ k2 ∈ mapKeys m) := by
  rw [show mapKeys (mapStore m k v) = k :: mapKeys (mapDelete m k) from rfl,
    List.mem_cons, mem_mapKeys_delete]
  constructor
  · rintro (rfl | ⟨hm, _⟩)
    · exact Or.inl rfl
    · exact Or.inr hm
  · rintro (rfl | hm)
    · exact Or.inl rfl
    · by_cases hk : k2 = k
      · exact Or.inl hk
      · exact Or.inr ⟨hm, hk⟩

theorem nodup_mapKeys_delete {K V : Type} [DecidableEq K] (m : List (K × V))
    (k : K) (h : (mapKeys m).Nodup) : (mapKeys (mapDelete m k)).Nodup := by
  induction m with
  | nil => simp [mapDelete, mapKeys]
  | cons p rest ih =>
      obtain ⟨k3, v⟩ := p
      rw [mapKeys_cons, List.nodup_cons] at h
      by_cases h3 : k3 = k
      · rw [show mapDelete ((k3, v) :: rest) k = mapDelete rest k from by
          simp [mapDelete, h3]]
        exact ih h.2
      · rw [show mapDelete ((k3, v) :: rest) k = (k3, v) :: mapDelete rest k
          from by simp [mapDelete, h3]]
        rw [mapKeys_cons, List.nodup_cons]
        exact ⟨fun hmem => h.1 ((mem_mapKeys_delete rest k k3).mp hmem).1,
          ih h.2⟩

theorem nodup_mapKeys_store {K V : Type} [DecidableEq K] (m : List (K × V))
    (k : K) (v : V) (h : (mapKeys m).Nodup) :
    (mapKeys (mapStore m k v)).Nodup := by
  rw [show mapKeys (mapStore m k v) = k :: mapKeys (mapDelete m k) from rfl,
    List.nodup_cons]
  exact ⟨fun hmem => ((mem_mapKeys_delete m k k).mp hmem).2 rfl,
    nodup_mapKeys_delete m k h⟩

theorem getD_append_last {α : Type} (l : List α) (a d : α) :
    (l ++ [a]).getD l.length d = a := by
  rw [List.getD_append_right l [a] d l.length (le_refl _)]
  simp

theorem getD_mem_of_lt {α : Type} (l : List α) (j : Nat) (d : α)
    (h : j < l.length) : l.getD j d ∈ l := by
  rw [List.getD_eq_getElem l d h]
  exact List.getElem_mem h

theorem getD_ne_of_nodup {α : Type} (l : List α) (d : α) (i j : Nat)
    (hi : i < l.length) (hj : j < l.length) (hij : i ≠ j) (hnd : l.Nodup) :
    l.getD i d ≠ l.getD j d := by
  rw [List.getD_eq_getElem l d hi, List.getD_eq_getElem l d hj]
  intro h
  exact hij (hnd.getElem_inj_iff.mp h)

theorem addRecentMessage_eq (st : RecentMessagesState) (toJID : JID)
    (id : String) (msg : Nat) :
    addRecentMessage st toJID id msg =
      ⟨mapStore
          (if (st.recentMessagesList.getD st.recentMessagesPtr
                emptyRecentKey).ID ≠ "" then
            mapDelete st.recentMessagesMap
              (st.recentMessagesList.getD st.recentMessagesPtr
                emptyRecentKey)
          else st.recentMessagesMap)
          ⟨toJID, id⟩ msg,
        st.recentMessagesList.set st.recentMessagesPtr ⟨toJID, id⟩,
        if st.recentMessagesPtr + 1 ≥ st.recentMessagesList.length then 0
        else st.recentMessagesPtr + 1⟩ := rfl

theorem RMInv_step (ks : List recentMessageKey) (st : RecentMessagesState)
    (c : recentMessageKey) (msg : Nat) (hinv : RMInv ks st) (hnd : ks.Nodup)
    (hgood : ∀ k ∈ ks, k.ID ≠ "") :
    RMInv (ks ++ [c]) (addRecentMessage st c.To c.ID msg) := by
  obtain ⟨hL, hP, hS, hM, hN⟩ := hinv
  have hkey : (⟨c.To, c.ID⟩ : recentMessageKey) = c := rfl
  rw [addRecentMessage_eq, hkey]
  have hptrlt : st.recentMessagesPtr < 256 := by omega
  have hev := hS st.recentMessagesPtr hptrlt
  have hlen1 : (ks ++ [c]).length = ks.length + 1 := by simp
  have hlen2 :
      (st.recentMessagesList.set st.recentMessagesPtr c).length = 256 := by
    rw [List.length_set]
    exact hL
  have hset : ∀ i, i < 256 →
      (st.recentMessagesList.set st.recentMessagesPtr c).getD i
          emptyRecentKey =
        if st.recentMessagesPtr = i then c
        else st.recentMessagesList.getD i emptyRecentKey := by
    intro i hi
    have h1 : i < (st.recentMessagesList.set st.recentMessagesPtr c).length :=
      by rw [hlen2]; exact hi
    rw [List.getD_eq_getElem _ _ h1, List.getElem_set]
    split
    · rfl
    · rw [List.getD_eq_getElem st.recentMessagesList emptyRecentKey
        (by rw [hL]; exact hi)]
  unfold RMInv
  dsimp only
  refine ⟨hlen2, ?_, ?_, ?_, ?_⟩
  · rw [hL, hlen1]
    split <;> omega
  · intro i hi
    rw [hset i hi, hlen1]
    by_cases hieq : st.recentMessagesPtr = i
    · rw [if_pos hieq, if_pos (show i < ks.length + 1 by omega)]
      rw [lastIdx_succ_eq ks.length i hi (by omega), getD_append_last]
    · rw [if_neg hieq]
      by_cases hin : i < ks.length
      · rw [hS i hi, if_pos hin, if_pos (show i < ks.length + 1 by omega)]
        rw [lastIdx_succ_ne ks.length i hi hin (by omega)]
        rw [List.getD_append ks [c] emptyRecentKey _ (lastIdx_lt _ _ hin)]
      · rw [hS i hi, if_neg hin,
          if_neg (show ¬ i < ks.length + 1 by omega)]
  · intro k
    rw [hlen1]
    by_cases hbig : 256 ≤ ks.length
    · have hptr2 : st.recentMessagesPtr < ks.length := by omega
      have hevv : st.recentMessagesList.getD st.recentMessagesPtr
          emptyRecentKey = ks.getD (ks.length - 256) emptyRecentKey := by
        rw [hev, if_pos hptr2, hP, lastIdx_mod_self ks.length hbig]
      have hevmem : ks.getD (ks.length - 256) emptyRecentKey ∈ ks :=
        getD_mem_of_lt _ _ _ (by omega)
      have hevne : (ks.getD (ks.length - 256) emptyRecentKey).ID ≠ "" :=
        hgood _ hevmem
      rw [hevv, if_pos hevne, mem_mapKeys_store, mem_mapKeys_delete, hM k]
      constructor
      · rintro (rfl | ⟨⟨j, hj1, hj2, hj3⟩, hne⟩)
        · exact ⟨ks.length, by omega, by omega, getD_append_last _ _ _⟩
        · have hjne : j ≠ ks.length - 256 :=
            fun hx => hne (by rw [← hj3, hx])
          exact ⟨j, by omega, by omega,
            by rw [List.getD_append ks [c] emptyRecentKey j hj2]; exact hj3⟩
      · rintro ⟨j, hj1, hj2, hj3⟩
        by_cases hjn : j < ks.length
        · refine Or.inr ⟨⟨j, by omega, hjn, ?_⟩, ?_⟩
          · rw [List.getD_append ks [c] emptyRecentKey j hjn] at hj3
            exact hj3
          · rw [← hj3, List.getD_append ks [c] emptyRecentKey j hjn]
            exact getD_ne_of_nodup ks emptyRecentKey j (ks.length - 256)
              hjn (by omega) (by omega) hnd
        · have hj4 : j = ks.length := by omega
          subst hj4
          rw [getD_append_last] at hj3
          exact Or.inl hj3.symm
    · have hevv : st.recentMessagesList.getD st.recentMessagesPtr
          emptyRecentKey = emptyRecentKey := by
        rw [hev, if_neg (show ¬ st.recentMessagesPtr < ks.length by omega)]
      rw [hevv, if_neg (show ¬ (emptyRecentKey.ID ≠ "") by decide),
        mem_mapKeys_store, hM k]
      constructor
      · rintro (rfl | ⟨j, hj1, hj2, hj3⟩)
        · exact ⟨ks.length, by omega, by omega, getD_append_last _ _ _⟩
        · exact ⟨j, by omega, by omega,
            by rw [List.getD_append ks [c] emptyRecentKey j hj2]; exact hj3⟩
      · rintro ⟨j, hj1, hj2, hj3⟩
        by_cases hjn : j < ks.length
        · refine Or.inr ⟨j, by omega, hjn, ?_⟩
          rw [List.getD_append ks [c] emptyRecentKey j hjn] at hj3
          exact hj3
        · have hj4 : j = ks.length := by omega
          subst hj4
          rw [getD_append_last] at hj3
          exact Or.inl hj3.symm
  · apply nodup_mapKeys_store
    split
    · exact nodup_mapKeys_delete _ _ hN
    · exact hN

theorem RMInv_addRecentMessages (items : List (JID × String × Nat))
    (hnd : (keysOf items).Nodup)
    (hgood : ∀ k ∈ keysOf items, k.ID ≠ "") :
    RMInv (keysOf items) (addRecentMessages freshRecentMessages items) := by
  revert hnd hgood
  induction items using List.reverseRecOn with
  | nil =>
      intro _ _
      have h0 : addRecentMessages freshRecentMessages [] =
          freshRecentMessages := rfl
      rw [h0]
      unfold RMInv
      refine ⟨?_, ?_, ?_, ?_, ?_⟩
      · show (List.replicate recentMessagesSize emptyRecentKey).length = 256
        rw [List.length_replicate]
        rfl
      · rfl
      · intro i hi
        rw [if_neg (show ¬ i <
          (keysOf ([] : List (JID × String × Nat))).length by simp [keysOf])]
        show (List.replicate recentMessagesSize emptyRecentKey).getD i
          emptyRecentKey = emptyRecentKey
        by_cases h : i < 256
        · rw [List.getD_eq_getElem _ _
            (show i < (List.replicate recentMessagesSize
              emptyRecentKey).length by
                rw [List.length_replicate]; exact h),
            List.getElem_replicate]
        · refine List.getD_eq_default _ _ ?_
          rw [List.length_replicate]
          omega
      · intro k
        constructor
        · intro h
          have h2 : k ∈ ([] : List recentMessageKey) := h
          simp at h2
        · rintro ⟨j, _, hj, _⟩
          have h3 : (keysOf ([] : List (JID × String × Nat))).length = 0 :=
            rfl
          omega
      · show ([] : List recentMessageKey).Nodup
        simp
  | append_singleton xs x ih =>
      intro hnd hgood
      have hk : keysOf (xs ++ [x]) =
          keysOf xs ++ [(⟨x.1, x.2.1⟩ : recentMessageKey)] := by
        simp [keysOf]
      rw [hk] at hnd hgood ⊢
      have hnd2 : (keysOf xs).Nodup := (List.nodup_append.mp hnd).1
      have hgood2 : ∀ k ∈ keysOf xs, k.ID ≠ "" :=
        fun k hkm => hgood k (by simp [hkm])
      have hfold : addRecentMessages freshRecentMessages (xs ++ [x]) =
          addRecentMessage (addRecentMessages freshRecentMessages xs)
            x.1 x.2.1 x.2.2 := by
        simp [addRecentMessages, List.foldl_append]
      rw [hfold]
      exact RMInv_step (keysOf xs) (addRecentMessages freshRecentMessages xs)
        ⟨x.1, x.2.1⟩ x.2.2 (ih hnd2 hgood2) hnd2 hgood2

theorem mem_ringKeys_iff (st : RecentMessagesState) (k : recentMessageKey) :
    k ∈ ringKeys st ↔ k ∈ st.recentMessagesList ∧ k.ID ≠ "" := by
  simp [ringKeys, List.mem_filter]

theorem mem_drop_iff_getD {α : Type} (l : List α) (m : Nat) (d a : α) :
    a ∈ l.drop m ↔ ∃ j, m ≤ j ∧ j < l.length ∧ l.getD j d = a := by
  constructor
  · intro h
    obtain ⟨i, hi, hieq⟩ := List.mem_iff_getElem.mp h
    have hlt : m + i < l.length := by
      have := List.length_drop m l
      omega
    refine ⟨m + i, Nat.le_add_right m i, hlt, ?_⟩
    rw [List.getD_eq_getElem l d hlt, ← List.getElem_drop l]
    exact hieq
  · rintro ⟨j, hj1, hj2, hj3⟩
    have h4 : j - m < (l.drop m).length := by
      rw [List.length_drop]
      omega
    have h5 : (l.drop m).getD (j - m) d = l.getD j d := by
      rw [List.getD_eq_getElem _ d h4, List.getD_eq_getElem l d hj2,
        List.getElem_drop]
      simp only [Nat.add_sub_cancel' hj1]
    rw [← hj3, ← h5]
    exact getD_mem_of_lt _ _ _ h4

/-- C2 (amended): for every sequence of addRecentMessage calls from a fresh
client whose keys are pairwise distinct and have nonempty IDs, the key set
of the recent-messages map equals the set of keys in non-empty ring slots,
and after more than 256 insertions exactly 256 entries remain in both the
ring and the map, namely the 256 most recently inserted keys.  (The
distinctness hypothesis is necessary: see the counterexample, where a
duplicated key is evicted from the map while still sitting in another ring
slot.) -/
theorem claim_C2_ring_map_invariant (items : List (JID × String × Nat))
    (hnd : (keysOf items).Nodup)
    (hgood : ∀ k ∈ keysOf items, k.ID ≠ "") :
    (∀ k, k ∈ mapKeys (addRecentMessages freshRecentMessages
          items).recentMessagesMap ↔
        k ∈ ringKeys (addRecentMessages freshRecentMessages items)) ∧
    (256 < items.length →
      (mapKeys (addRecentMessages freshRecentMessages
          items).recentMessagesMap).length = 256 ∧
      (ringKeys (addRecentMessages freshRecentMessages items)).length = 256 ∧
      (∀ k, k ∈ mapKeys (addRecentMessages freshRecentMessages
            items).recentMessagesMap ↔
          k ∈ (keysOf items).drop (items.length - 256))) := by
  obtain ⟨hL, hP, hS, hM, hN⟩ := RMInv_addRecentMessages items hnd hgood
  have hkl : (keysOf items).length = items.length := by simp [keysOf]
  constructor
  · intro k
    rw [mem_ringKeys_iff]
    constructor
    · intro h
      obtain ⟨j, hj1, hj2, hj3⟩ := (hM k).mp h
      have hi : j % 256 < 256 := Nat.mod_lt _ (by omega)
      have hij : j % 256 < (keysOf items).length := by
        have := Nat.mod_le j 256
        omega
      have hslot := hS (j % 256) hi
      rw [if_pos hij, lastIdx_of_mod _ j hj1 hj2, hj3] at hslot
      constructor
      · rw [← hslot]
        exact getD_mem_of_lt _ _ _ (by rw [hL]; exact hi)
      · rw [← hj3]
        exact hgood _ (getD_mem_of_lt _ _ _ hj2)
    · rintro ⟨hmem, hkid⟩
      obtain ⟨i, hilen, hieq⟩ := List.mem_iff_getElem.mp hmem
      have hi : i < 256 := by rw [hL] at hilen; exact hilen
      have hgetD : (addRecentMessages freshRecentMessages
          items).recentMessagesList.getD i emptyRecentKey = k := by
        rw [List.getD_eq_getElem _ _ hilen]
        exact hieq
      have hslot := hS i hi
      rw [hgetD] at hslot
      by_cases hin : i < (keysOf items).length
      · rw [if_pos hin] at hslot
        exact (hM k).mpr ⟨lastIdx (keysOf items).length i,
          lastIdx_ge _ _ hin, lastIdx_lt _ _ hin, hslot.symm⟩
      · rw [if_neg hin] at hslot
        exact absurd (by rw [hslot]; rfl) hkid
  · intro hgt
    have hall : ∀ x ∈ (addRecentMessages freshRecentMessages
        items).recentMessagesList, decide (x.ID ≠ "") = true := by
      intro x hx
      obtain ⟨i, hilen, hieq⟩ := List.mem_iff_getElem.mp hx
      have hi : i < 256 := by rw [hL] at hilen; exact hilen
      have hgetD : (addRecentMessages freshRecentMessages
          items).recentMessagesList.getD i emptyRecentKey = x := by
        rw [List.getD_eq_getElem _ _ hilen]
        exact hieq
      have hslot := hS i hi
      rw [hgetD, if_pos (show i < (keysOf items).length by omega)] at hslot
      refine decide_eq_true ?_
      rw [hslot]
      exact hgood _ (getD_mem_of_lt _ _ _ (lastIdx_lt _ _ (by omega)))
    have hfe : ringKeys (addRecentMessages freshRecentMessages items) =
        (addRecentMessages freshRecentMessages items).recentMessagesList :=
      List.filter_eq_self.mpr hall
    have hdm : ∀ k, k ∈ mapKeys (addRecentMessages freshRecentMessages
        items).recentMessagesMap ↔
        k ∈ (keysOf items).drop (items.length - 256) := by
      intro k
      rw [hM k,
        mem_drop_iff_getD (keysOf items) (items.length - 256)
          emptyRecentKey k]
      constructor
      · rintro ⟨j, hj1, hj2, hj3⟩
        exact ⟨j, by omega, hj2, hj3⟩
      · rintro ⟨j, hj1, hj2, hj3⟩
        exact ⟨j, by omega, hj2, hj3⟩
    have hdnd : ((keysOf items).drop (items.length - 256)).Nodup :=
      List.Nodup.sublist (List.drop_sublist _ _) hnd
    have hperm := (List.perm_ext_iff_of_nodup hN hdnd).mpr hdm
    refine ⟨?_, ?_, hdm⟩
    · rw [hperm.length_eq, List.length_drop]
      omega
    · rw [hfe, hL]

set_option maxRecDepth 100000 in
set_option maxHeartbeats 8000000 in
/-- C2, counterexample to the unamended claim: after the 257 insertions of
c2dupItems, whose key (c2jid 0, x) occurs twice, that key still sits in a
non-empty ring slot but is no longer in the map, so the map/ring
consistency stated for arbitrary call sequences is false. -/
theorem claim_C2_counterexample :
    (⟨c2jid 0, "x"⟩ : recentMessageKey) ∈ ringKeys
        (addRecentMessages freshRecentMessages c2dupItems) ∧
    (⟨c2jid 0, "x"⟩ : recentMessageKey) ∉ mapKeys
        (addRecentMessages freshRecentMessages
          c2dupItems).recentMessagesMap := by
  decide

set_option maxRecDepth 100000 in
set_option maxHeartbeats 8000000 in
/-- C2 witness: the amended theorem applied to three concrete distinct
insertions. -/
theorem claim_C2_witness :
    (⟨c2jid 0, "x"⟩ : recentMessageKey) ∈ mapKeys
      (addRecentMessages freshRecentMessages
        c2WitnessItems).recentMessagesMap :=
  ((claim_C2_ring_map_invariant c2WitnessItems (by decide)
    (by decide)).1 ⟨c2jid 0, "x"⟩).mpr (by decide)

end Whatsmeow
